import Mathlib

/-!
Verification of the Armageddon-Chess backend room actor (`src/worker.js`).

The development shallowly embeds the `GameRoom` durable-object handlers and
the `RoomIndex` queue operations as pure Lean functions over an explicit
`Room` (resp. queue) state, with the wall clock `now` and the external chess
engine passed as arguments.  JavaScript numbers are modelled as `Int`,
JavaScript truthiness on nullable numbers/strings by the `truthyI` /
`truthyS` helpers, and JavaScript objects used as string-keyed maps by
association lists with `alookup` / `aset` (assignment keeps the position of
an existing key and appends new keys, as JS object insertion order does).
-/

namespace Armageddon

/-- JS truthiness for a nullable number (`null`/`undefined` and `0` are falsy). -/
def truthyI : Option Int → Bool
  | none => false
  | some n => n != 0

/-- JS truthiness for a nullable string (`null`/`undefined` and `""` are falsy). -/
def truthyS : Option String → Bool
  | none => false
  | some s => s != ""

/-- Lookup in a JS-object-as-map (first binding wins; keys are unique by construction). -/
def alookup (k : String) : List (String × α) → Option α
  | [] => none
  | (k', v) :: rest => if k' = k then some v else alookup k rest

/-- JS object assignment `m[k] = v`: overwrite in place if the key exists, else append. -/
def aset (k : String) (v : α) : List (String × α) → List (String × α)
  | [] => [(k, v)]
  | (k', v') :: rest => if k' = k then (k, v) :: rest else (k', v') :: aset k v rest

inductive Phase where
  | LOBBY | BIDDING | COLOR_PICK | PLAYING | FINISHED
  deriving DecidableEq, Repr

structure Player where
  id : String
  name : Option String
  joinedAt : Int
  deriving DecidableEq, Repr

structure BidRec where
  amount : Int
  submittedAt : Int
  deriving DecidableEq, Repr

structure Clocks where
  whiteRemainingMs : Int
  blackRemainingMs : Int
  lastTickAt : Int
  turn : String
  frozenAt : Option Int := none
  deriving DecidableEq, Repr

structure MoveRec where
  by_ : String
  move : String
  at_ : Int
  deriving DecidableEq, Repr

/-- The room record of `GameRoom` in `src/worker.js` (`_defaultState` plus the
fields assigned later: `startRequestedBy`, `startConfirmDeadline`, `gameFen`,
`rematchWindowEnds`, `rematchVotes`, `removedAt`).  `private` is a Lean
keyword, hence `isPrivate`. -/
structure Room where
  roomId : Option String
  phase : Phase
  players : List Player
  maxPlayers : Int
  bids : List (String × BidRec)
  bidDeadline : Option Int
  choiceDeadline : Option Int
  winnerId : Option String
  loserId : Option String
  winningBidMs : Option Int
  losingBidMs : Option Int
  drawOddsSide : Option String
  colors : List (String × String)
  clocks : Option Clocks
  moves : List MoveRec
  choiceAttempts : Int
  currentPicker : Option String
  createdAt : Int
  updatedAt : Int
  bidDurationMs : Int
  choiceDurationMs : Int
  mainTimeMs : Int
  isPrivate : Bool
  closed : Bool
  closeReason : Option String
  closedAt : Option Int
  disconnectedPlayerId : Option String
  disconnectStart : Option Int
  disconnectTimeoutMs : Int
  startRequestedBy : Option String
  startConfirmDeadline : Option Int
  gameFen : Option String
  rematchWindowEnds : Option Int
  rematchVotes : Option (List (String × Bool))
  removedAt : Option Int
  deriving DecidableEq, Repr

/-- `_defaultState()`. -/
def defaultState (now : Int) : Room where
  roomId := none
  phase := .LOBBY
  players := []
  maxPlayers := 2
  bids := []
  bidDeadline := none
  choiceDeadline := none
  winnerId := none
  loserId := none
  winningBidMs := none
  losingBidMs := none
  drawOddsSide := none
  colors := []
  clocks := none
  moves := []
  choiceAttempts := 0
  currentPicker := none
  createdAt := now
  updatedAt := now
  bidDurationMs := 10000
  choiceDurationMs := 10000
  mainTimeMs := 300000
  isPrivate := false
  closed := false
  closeReason := none
  closedAt := none
  disconnectedPlayerId := none
  disconnectStart := none
  disconnectTimeoutMs := 45000
  startRequestedBy := none
  startConfirmDeadline := none
  gameFen := none
  rematchWindowEnds := none
  rematchVotes := none
  removedAt := none

/-- `_save()` — persists and stamps `updatedAt = Date.now()`. -/
def save (r : Room) (now : Int) : Room := { r with updatedAt := now }

/-- JS `deadline && now > deadline` on a nullable ms timestamp. -/
def dlPassed (dl : Option Int) (now : Int) : Bool :=
  match dl with
  | none => false
  | some d => d != 0 && now > d

/-- Response of a handler, reduced to the fields the specification talks
about: error code, or `ok` with the optional `result` / `reason` /
`winnerId` payload of the JSON body. -/
inductive HResp where
  | err (code : String)
  | ok (result : Option String) (reason : Option String) (winner : Option String)
  deriving DecidableEq, Repr

/-- Outcome of one handler call: the response, the in-memory room afterwards
(`this.room`), and the last room state persisted by `_save` during the call
(the input room when the handler never saved). -/
structure HOut where
  resp : HResp
  mem : Room
  per : Room
  deriving Repr

/-- `_resolveBidsIfNeeded()`.  The two-player destructuring
`const [p1, p2] = this.room.players.map(p => p.id)` is modelled by the list
match; with fewer than two players the JS code would read and write the
coerced property key `"undefined"`, a degenerate case the embedding leaves
as a no-op. -/
def resolveBidsIfNeeded (r : Room) (now : Int) : Room :=
  if r.phase ≠ .BIDDING then r else
  match r.players.map (·.id) with
  | p1 :: p2 :: _ =>
    let bids := r.bids
    let b1 := alookup p1 bids
    let b2 := alookup p2 bids
    let deadlinePassed := dlPassed r.bidDeadline now
    if (b1.isNone || b2.isNone) && !deadlinePassed then r else
    let bids := if b1.isNone then aset p1 ⟨r.mainTimeMs, now⟩ bids else bids
    let bids := if b2.isNone then aset p2 ⟨r.mainTimeMs, now⟩ bids else bids
    match alookup p1 bids, alookup p2 bids with
    | some u1, some u2 =>
      if u1.amount = u2.amount then
        save { r with bids := [], bidDeadline := some (now + r.bidDurationMs) } now
      else
        let r :=
          if u1.amount < u2.amount then
            { r with winnerId := some p1, loserId := some p2,
                     winningBidMs := some u1.amount, losingBidMs := some u2.amount }
          else
            { r with winnerId := some p2, loserId := some p1,
                     winningBidMs := some u2.amount, losingBidMs := some u1.amount }
        save { r with bids := bids, drawOddsSide := none, phase := .COLOR_PICK,
                      choiceAttempts := 0, currentPicker := some "winner",
                      choiceDeadline := some (now + r.choiceDurationMs) } now
    | _, _ => r  -- unreachable: both keys were just filled
  | _ => r

/-- `_handleJoin`.  `playerId`/`name` come from the JSON body; an absent or
empty `playerId` is the falsy case of `if (!playerId)`. -/
def handleJoin (r : Room) (playerId : String) (name : Option String) (now : Int) : HOut :=
  if r.updatedAt != 0 && now - r.updatedAt > 5 * 60 * 1000 then
    let r' := save { r with removedAt := some now } now
    ⟨.err "room_too_old", r', r'⟩
  else if r.closed then ⟨.err "room_closed", r, r⟩
  else if playerId = "" then ⟨.err "playerId_required", r, r⟩
  else if r.phase ≠ .LOBBY then ⟨.err "not_in_lobby", r, r⟩
  else if (r.players.find? (·.id = playerId)).isSome then ⟨.ok none none none, r, r⟩
  else if (r.players.length : Int) ≥ r.maxPlayers then ⟨.err "room_full", r, r⟩
  else
    let r' := save { r with players := r.players ++ [⟨playerId, name, now⟩] } now
    ⟨.ok none none none, r', r'⟩

/-- Tail of `_handleStartBidding` that stages a fresh start request. -/
def stageStartRequest (r : Room) (playerId : String) (now : Int) : HOut :=
  let r' := save { r with startRequestedBy := some playerId,
                          startConfirmDeadline :=
                            some (now + (if r.choiceDurationMs != 0
                                         then r.choiceDurationMs else 60 * 1000)) } now
  ⟨.ok none none none, r', r'⟩

/-- `_handleStartBidding`. -/
def handleStartBidding (r : Room) (playerId : String) (now : Int) : HOut :=
  if playerId = "" then ⟨.err "playerId_required", r, r⟩
  else if r.phase ≠ .LOBBY then ⟨.err "invalid_phase", r, r⟩
  else if (r.players.length : Int) ≠ r.maxPlayers then ⟨.err "need_more_players", r, r⟩
  else if truthyS r.startRequestedBy && truthyI r.startConfirmDeadline then
    match r.startRequestedBy, r.startConfirmDeadline with
    | some reqBy, some dl =>
      if reqBy = playerId then ⟨.ok none none none, r, r⟩  -- message "already_requested"
      else if now ≤ dl then
        let r' := save { r with phase := .BIDDING,
                                bidDeadline := some (now + r.bidDurationMs),
                                bids := [], winnerId := none, loserId := none,
                                winningBidMs := none, losingBidMs := none,
                                drawOddsSide := none, choiceAttempts := 0,
                                currentPicker := none, startRequestedBy := none,
                                startConfirmDeadline := none } now
        ⟨.ok none none none, r', r'⟩
      else
        let r' := save { r with startRequestedBy := none, startConfirmDeadline := none } now
        ⟨.err "start_request_expired", r', r'⟩
    | _, _ => stageStartRequest r playerId now  -- unreachable under the truthiness guard
  else stageStartRequest r playerId now

/-- `_handleSubmitBid`.  `amount = none` models `typeof amount !== 'number'`. -/
def handleSubmitBid (r : Room) (playerId : String) (amount : Option Int) (now : Int) : HOut :=
  if r.phase ≠ .BIDDING then ⟨.err "not_bidding", r, r⟩ else
  match amount with
  | none => ⟨.err "playerId_and_amount_required", r, r⟩
  | some amt =>
    if playerId = "" then ⟨.err "playerId_and_amount_required", r, r⟩
    else if (r.players.find? (·.id = playerId)).isNone then ⟨.err "unknown_player", r, r⟩
    else if amt < 0 || amt > r.mainTimeMs then ⟨.err "invalid_bid_amount", r, r⟩
    else if dlPassed r.bidDeadline now then
      let r' := resolveBidsIfNeeded r now
      ⟨.err "bidding_closed", r', r'⟩
    else if (alookup playerId r.bids).isSome then ⟨.err "already_bid", r, r⟩
    else
      let r' := save { r with bids := aset playerId ⟨amt, now⟩ r.bids } now
      let r'' := resolveBidsIfNeeded r' now
      ⟨.ok none none none, r'', r''⟩

/-- `_handleChooseColor`. -/
def handleChooseColor (r : Room) (playerId : String) (color : String) (now : Int) : HOut :=
  if r.phase ≠ .COLOR_PICK then ⟨.err "not_in_color_pick", r, r⟩ else
  let allowedRole := if r.currentPicker = some "winner" then r.winnerId else r.loserId
  if some playerId ≠ allowedRole then ⟨.err "not_allowed_to_choose", r, r⟩
  else if color ≠ "white" && color ≠ "black" then ⟨.err "invalid_color", r, r⟩
  else if dlPassed r.choiceDeadline now then ⟨.err "choice_deadline_passed", r, r⟩
  else
    -- `players.find(p => p.id !== playerId)?.id || null`: an empty id is falsy
    let other := match r.players.find? (·.id ≠ playerId) with
      | some p => if p.id = "" then none else some p.id
      | none => none
    let colors := [(playerId, color)]
    let colors := match other with
      | some o => aset o (if color = "white" then "black" else "white") colors
      | none => colors
    let winnerMs := match r.winningBidMs with | some n => n | none => 0
    let loserMs := r.mainTimeMs
    let clocks : Clocks :=
      { whiteRemainingMs := if color = "white" then winnerMs else loserMs
        blackRemainingMs := if color = "black" then winnerMs else loserMs
        lastTickAt := now
        turn := "white" }
    -- `Object.keys(colors).find(id => colors[id] === 'black') || null`
    let blackPlayerId := match colors.find? (·.2 = "black") with
      | some e => if e.1 = "" then none else some e.1
      | none => none
    let r' := save { r with colors := colors, clocks := some clocks,
                            drawOddsSide := blackPlayerId, phase := .PLAYING } now
    ⟨.ok none none none, r', r'⟩

/-- `_resolveChoiceIfNeeded()`. -/
def resolveChoiceIfNeeded (r : Room) (now : Int) : Room :=
  if r.phase ≠ .COLOR_PICK then r else
  if !dlPassed r.choiceDeadline now then r else
  let attempts := r.choiceAttempts + 1
  if attempts ≥ 4 then
    save { r with choiceAttempts := attempts, phase := .FINISHED, winnerId := none } now
  else
    save { r with choiceAttempts := attempts,
                  currentPicker := some (if r.currentPicker = some "winner"
                                         then "loser" else "winner"),
                  choiceDeadline := some (now + r.choiceDurationMs) } now

/-- The six piece types the external chess library reports
(`'k' | 'q' | 'r' | 'b' | 'n' | 'p'`). -/
inductive PieceKind where
  | k | q | r | b | n | p
  deriving DecidableEq, Repr

/-- One board piece as reported by the external chess library
(`game.board().flat().filter(Boolean)`): `color ∈ {'w','b'}`. -/
structure Piece where
  color : Char
  ptype : PieceKind
  deriving DecidableEq, Repr

/-- Result of a successful `game.move(...)` call together with the terminal
predicates the handler queries on the resulting position. -/
structure EngineMove where
  fen : String
  isCheckmate : Bool
  isStalemate : Bool
  isInsufficientMaterial : Bool
  isThreefoldRepetition : Bool
  isDraw : Bool
  deriving DecidableEq, Repr

/-- The external chess engine at the room's current position
(`new Chess(this.room.gameFen || undefined)`), reduced to the two queries
the handler makes: the flattened board and the move verdict
(`none` = the engine refused the move). -/
structure ChessEngine where
  board : List Piece
  tryMove : String → String → Option Char → Option EngineMove

/-- `game.board().flat().filter(Boolean)` restricted to the opponent's
pieces, king excluded. -/
def opponentNonKing (board : List Piece) (opponentColorLetter : Char) : List Piece :=
  (board.filter (·.color = opponentColorLetter)).filter (·.ptype ≠ .k)

/-- `canEverMate` at flag-fall: the opponent's non-king material contains a
queen, rook or pawn, or more than one piece overall. -/
def canEverMate (board : List Piece) (opponentColorLetter : Char) : Bool :=
  let hasMajorOrPawn :=
    (opponentNonKing board opponentColorLetter).any
      (fun p => p.ptype = .q || p.ptype = .r || p.ptype = .p)
  let hasMultipleMinors := (opponentNonKing board opponentColorLetter).length > 1
  hasMajorOrPawn || hasMultipleMinors

/-- `players.find(p => this.room.colors[p.id] !== playerColor)?.id || null`. -/
def opponentOf (r : Room) (playerColor : String) : Option String :=
  match r.players.find? (fun p => alookup p.id r.colors ≠ some playerColor) with
  | some p => if p.id = "" then none else some p.id
  | none => none

/-- The elapsed-time deduction of `_handleMakeMove` (lines 428–430):
`elapsed = now - (lastTickAt || now)` subtracted from the moving side. -/
def deductedClocks (c : Clocks) (playerColor : String) (now : Int) : Clocks :=
  let elapsed := now - (if c.lastTickAt != 0 then c.lastTickAt else now)
  if playerColor = "white" then
    { c with whiteRemainingMs := c.whiteRemainingMs - elapsed }
  else
    { c with blackRemainingMs := c.blackRemainingMs - elapsed }

/-- `(playerColor === 'white' && whiteFlagged) || (playerColor === 'black' && blackFlagged)`
with `whiteFlagged`/`blackFlagged` the `≤ 0` checks on the deducted clocks. -/
def moverFlagged (playerColor : String) (c : Clocks) : Bool :=
  let whiteFlagged : Bool := c.whiteRemainingMs ≤ 0
  let blackFlagged : Bool := c.blackRemainingMs ≤ 0
  (playerColor = "white" && whiteFlagged) || (playerColor = "black" && blackFlagged)

/-- The flag-fall block of `_handleMakeMove` (lines 435–481 of the source):
the mover's clock is spent; either a draw because the opponent cannot ever
mate, or a time forfeit in the opponent's favor. -/
def flagFallOutcome (rm : Room) (clocks1 : Clocks) (playerColor : String)
    (engine : ChessEngine) (now : Int) : HOut :=
  let opponentColorLetter := if playerColor = "white" then 'b' else 'w'
  if !canEverMate engine.board opponentColorLetter then
    let r' := save { rm with phase := .FINISHED, winnerId := none,
                             clocks := some { clocks1 with frozenAt := some now },
                             rematchWindowEnds := some (now + 10 * 1000),
                             rematchVotes := some [] } now
    ⟨.ok (some "draw") (some "timeout_but_opponent_cannot_mate") none, r', r'⟩
  else
    let winnerId := opponentOf rm playerColor
    let r' := save { rm with phase := .FINISHED, winnerId := winnerId,
                             clocks := some { clocks1 with frozenAt := some now },
                             rematchWindowEnds := some (now + 15 * 1000),
                             rematchVotes := some [] } now
    ⟨.ok (some "time_forfeit") none winnerId, r', r'⟩

/-- The tail of `_handleMakeMove` after the external engine accepted the
move (lines 491–538): record it, flip the turn, then detect checkmate and
the draw conditions on the new position. -/
def engineMoveOutcome (rm : Room) (clocks1 : Clocks) (playerId mv : String)
    (em : EngineMove) (now : Int) : HOut :=
  let turn2 := if clocks1.turn = "white" then "black" else "white"
  let clocks2 := { clocks1 with lastTickAt := now, turn := turn2 }
  let rm := { rm with gameFen := some em.fen,
                      moves := rm.moves ++ [⟨playerId, mv, now⟩],
                      clocks := some clocks2 }
  if em.isCheckmate then
    let r' := save { rm with phase := .FINISHED, winnerId := some playerId,
                             clocks := some { clocks2 with frozenAt := some now },
                             rematchWindowEnds := some (now + 15 * 1000),
                             rematchVotes := some [] } now
    ⟨.ok (some "checkmate") none (some playerId), r', r'⟩
  else
  let drawReason : Option String :=
    if em.isStalemate then some "stalemate"
    else if em.isInsufficientMaterial then some "insufficient_material"
    else if em.isThreefoldRepetition then some "threefold_repetition"
    else if em.isDraw then some "draw"
    else none
  match drawReason with
  | some reason =>
    let r' := save { rm with phase := .FINISHED, winnerId := none,
                             clocks := some { clocks2 with frozenAt := some now },
                             rematchWindowEnds := some (now + 15 * 1000),
                             rematchVotes := some [] } now
    ⟨.ok (some "draw") (some reason) none, r', r'⟩
  | none =>
    let r' := save rm now
    ⟨.ok none none none, r', r'⟩

/-- `_handleMakeMove`.  `move = none` models `typeof move !== 'string'`;
the `engine` argument stands for `new Chess(this.room.gameFen || undefined)`.
When `clocks` is `null` in phase PLAYING the JS code would throw reading
`clocks.turn` (caught by `fetch` as a 400 with no state change); the room
invariant keeps that case unreachable. -/
def handleMakeMove (r : Room) (playerId : String) (move : Option String)
    (engine : ChessEngine) (now : Int) : HOut :=
  if r.phase ≠ .PLAYING then ⟨.err "not_playing", r, r⟩ else
  match alookup playerId r.colors with
  | none => ⟨.err "unknown_player_color", r, r⟩
  | some playerColor =>
  match r.clocks with
  | none => ⟨.err "thrown", r, r⟩
  | some clocks0 =>
  if playerColor ≠ clocks0.turn then ⟨.err "not_your_turn", r, r⟩ else
  -- in-memory mutations made before any validation of the move itself
  let rm0 := if r.disconnectedPlayerId = some playerId then
               { r with disconnectedPlayerId := none, disconnectStart := none }
             else r
  let clocks1 := deductedClocks clocks0 playerColor now
  let rm := { rm0 with updatedAt := now, clocks := some clocks1 }
  if moverFlagged playerColor clocks1 then
    flagFallOutcome rm clocks1 playerColor engine now
  else
  match move with
  | none => ⟨.err "invalid_move_format", rm, r⟩
  | some mv =>
  if mv.length < 4 then ⟨.err "invalid_move_format", rm, r⟩ else
  let fromSq := String.mk (mv.toList.take 2)
  let toSq := String.mk ((mv.toList.drop 2).take 2)
  let promotion := if mv.length ≥ 5 then mv.toList.get? 4 else none
  match engine.tryMove fromSq toSq promotion with
  | none => ⟨.err "illegal_move", rm, r⟩
  | some em => engineMoveOutcome rm clocks1 playerId mv em now

/-- `_handleTimeForfeit`.  Note: unlike the terminal paths of
`_handleMakeMove`, this endpoint opens a 60-second rematch window and does
not freeze the clocks. -/
def handleTimeForfeit (r : Room) (timedOutPlayerId : String)
    (engine : ChessEngine) (now : Int) : HOut :=
  if r.phase ≠ .PLAYING then ⟨.err "invalid_phase", r, r⟩
  else if timedOutPlayerId = "" then ⟨.err "timedOutPlayerId_required", r, r⟩
  else
    let opponentId := (r.players.find? (·.id ≠ timedOutPlayerId)).map (·.id)
    -- `opponentId && this.room.colors ? this.room.colors[opponentId] : null`
    let opponentColor := match opponentId with
      | some oid => if oid = "" then none else alookup oid r.colors
      | none => none
    let opponentColorLetter : Option Char :=
      if opponentColor = some "white" then some 'w'
      else if opponentColor = some "black" then some 'b'
      else none
    let noMate := match opponentColorLetter with
      | some letter => !canEverMate engine.board letter
      | none => false
    let result := if noMate then "draw" else "time_forfeit"
    let reason := if noMate then some "timeout_but_opponent_cannot_mate" else none
    let winnerId := if noMate then none else opponentId
    let r' := save { r with phase := .FINISHED, winnerId := winnerId,
                            rematchWindowEnds := some (now + 60 * 1000),
                            rematchVotes := some [] } now
    ⟨.ok (some result) reason winnerId, r', r'⟩

/-- `_handleRematch`.  `agree` is the boolean coercion `!!body.agree`.
The unanimous-yes reset clears the round-scoped fields listed in the source —
note that `gameFen` is not among them. -/
def handleRematch (r : Room) (playerId : String) (agree : Bool) (now : Int) : HOut :=
  if playerId = "" then ⟨.err "playerId_required", r, r⟩
  else if r.phase ≠ .FINISHED then ⟨.err "not_finished", r, r⟩
  else if !truthyI r.rematchWindowEnds ||
          (match r.rematchWindowEnds with | some w => now > w | none => true) then
    ⟨.err "rematch_window_closed", r, r⟩
  else
    let votes0 := r.rematchVotes.getD []
    let rm := { r with rematchVotes := some votes0 }
    if (alookup playerId votes0).isSome then ⟨.err "already_voted", rm, r⟩
    else
      let votes := aset playerId agree votes0
      let r1 := save { rm with rematchVotes := some votes } now
      let ids := r1.players.map (·.id)
      let allAgreed := ids.length > 0 && ids.all (fun pid => alookup pid votes = some true)
      if allAgreed then
        let r2 := save { r1 with phase := .LOBBY, bids := [], bidDeadline := none,
                                 choiceDeadline := none, winnerId := none,
                                 loserId := none, winningBidMs := none,
                                 losingBidMs := none, drawOddsSide := none,
                                 colors := [], clocks := none, moves := [],
                                 choiceAttempts := 0, currentPicker := none,
                                 rematchWindowEnds := none,
                                 rematchVotes := none } now
        ⟨.ok none none none, r2, r2⟩
      else
        let anyNo := ids.any (fun pid => alookup pid votes = some false)
        if anyNo then
          let r2 := save { r1 with closed := true,
                                   closeReason := some "declined_rematch",
                                   closedAt := some now } now
          ⟨.ok none none none, r2, r2⟩
        else
          ⟨.ok none none none, r1, r1⟩

/-- `_handleLeave`: always succeeds; filters the player out of `players` and
touches nothing else (no save when the player was absent). -/
def handleLeave (r : Room) (playerId : String) (now : Int) : HOut :=
  if playerId = "" then ⟨.err "playerId_required", r, r⟩
  else
    let filtered := r.players.filter (·.id ≠ playerId)
    if filtered.length = r.players.length then
      ⟨.ok none none none, { r with players := filtered }, r⟩
    else
      let r' := save { r with players := filtered } now
      ⟨.ok none none none, r', r'⟩

/-- `_handleHeartbeat`: refreshes `updatedAt` in memory only (no `_save`). -/
def handleHeartbeat (r : Room) (playerId : String) (now : Int) : HOut :=
  if playerId ≠ "" then ⟨.ok none none none, { r with updatedAt := now }, r⟩
  else ⟨.ok none none none, r, r⟩

/-- The PLAYING-phase disconnect detection and enforcement inside
`_handleGetState` (returns the room plus the `saveNeeded` flag).  When
`clocks` is `null` the JS code would throw reading `clocks.turn`; the room
invariant keeps that case unreachable and the embedding skips the block. -/
def getStateDisconnect (r : Room) (now : Int) : Room × Bool :=
  if r.phase ≠ .PLAYING then (r, false) else
  match r.clocks with
  | none => (r, false)
  | some clocks =>
    let step1 :=
      if !truthyS r.disconnectedPlayerId && now - r.updatedAt > 10000 then
        let activePlayerId := (r.colors.find? (·.2 = clocks.turn)).map (·.1)
        -- `activePlayerId ? keys.find(id => id !== activePlayerId) : null`
        let disconnected := match activePlayerId with
          | some active =>
            if active = "" then none else (r.colors.find? (·.1 ≠ active)).map (·.1)
          | none => none
        if truthyS disconnected then
          ({ r with disconnectedPlayerId := disconnected, disconnectStart := some now }, true)
        else ({ r with disconnectedPlayerId := disconnected }, false)
      else (r, false)
    let r1 := step1.1
    if truthyS r1.disconnectedPlayerId &&
       truthyI r1.disconnectStart &&
       (match r1.disconnectStart with
        | some s => now - s > r1.disconnectTimeoutMs
        | none => false) then
      let keys := r1.colors.map (·.1)
      let winnerId :=
        if r1.disconnectedPlayerId = keys.get? 0 then keys.get? 1 else keys.get? 0
      ({ r1 with phase := .FINISHED, winnerId := winnerId,
                 closeReason := some "disconnect_forfeit" }, true)
    else (r1, step1.2)

/-- `_handleGetState` stale-start-request expiry stage (lines 643-650). -/
def getStateStartExpiry (r : Room) (now : Int) : Room × Bool :=
  if !r.closed && truthyI r.startConfirmDeadline &&
     (match r.startConfirmDeadline with | some d => now > d | none => false) then
    ({ r with startRequestedBy := none, startConfirmDeadline := none,
              closed := true, closeReason := some "start_expired",
              closedAt := some now }, true)
  else (r, false)

/-- `_handleGetState` expired-closed-room removal stage (lines 652-666). -/
def getStateRemoval (r : Room) (now : Int) : Room × Bool :=
  if r.closed && r.closeReason = some "start_expired" && truthyI r.closedAt &&
     (match r.closedAt with | some c => now - c > 10 * 60 * 1000 | none => false) then
    ({ r with removedAt := some now }, true)
  else (r, false)

/-- `_handleGetState` rematch-window expiry stage (lines 668-717); this branch
calls `_save` itself, so its flag is not merged into `saveNeeded`. -/
def getStateRematchExpiry (r : Room) (now : Int) : Room × Bool :=
  if r.phase = .FINISHED && truthyI r.rematchWindowEnds &&
     (match r.rematchWindowEnds with | some w => now > w | none => false) then
    let ids := r.players.map (·.id)
    let votes := r.rematchVotes.getD []
    let bothAgreed := ids.length > 0 && ids.all (fun pid => alookup pid votes = some true)
    let anyNo := ids.any (fun pid => alookup pid votes = some false)
    if !bothAgreed then
      (save { r with closed := true,
                     closeReason := some (if anyNo then "declined_rematch"
                                          else "rematch_timeout"),
                     closedAt := some now } now, true)
    else (r, false)
  else (r, false)

/-- `_handleGetState`: runs the lazy drivers in source order, then returns the
room (or `room_expired` after deleting the persisted record — the in-memory
room object is left as it was at that point). -/
def handleGetState (r : Room) (now : Int) : HOut :=
  let r2 := resolveChoiceIfNeeded (resolveBidsIfNeeded r now) now
  if r2.updatedAt != 0 && now - r2.updatedAt > 5 * 60 * 1000 then
    ⟨.err "room_expired", r2, r2⟩
  else
    let s3 := getStateDisconnect r2 now
    let s4 := getStateStartExpiry s3.1 now
    let s5 := getStateRemoval s4.1 now
    let s6 := getStateRematchExpiry s5.1 now
    if s3.2 || s4.2 || s5.2 then
      let r' := save s6.1 now
      ⟨.ok none none none, r', r'⟩
    else
      ⟨.ok none none none, s6.1, s6.1⟩

/-- Body of `_handleInit` (`/initRoom`).  `genId` stands for the generated
`room-<uuid>` when the body carries no truthy `roomId`. -/
structure InitBody where
  roomId : Option String
  maxPlayers : Option Int
  bidDurationMs : Option Int
  choiceDurationMs : Option Int
  mainTimeMs : Option Int
  isPrivate : Bool
  creatorPlayerId : Option String
  creatorName : Option String
  queuedPlayers : Option (List (String × Option String))
  deriving Repr

/-- `_handleInit`. -/
def handleInit (r : Room) (body : InitBody) (genId : String) (now : Int) : HOut :=
  if truthyS r.roomId then ⟨.err "already_initialized", r, r⟩
  else
    let roomId := if truthyS body.roomId then body.roomId else some genId
    let pick (v : Option Int) (dflt : Int) : Int :=
      match v with | some n => if n = 0 then dflt else n | none => dflt
    let r1 := { r with roomId := roomId,
                       maxPlayers := pick body.maxPlayers 2,
                       bidDurationMs := pick body.bidDurationMs r.bidDurationMs,
                       choiceDurationMs := pick body.choiceDurationMs r.choiceDurationMs,
                       mainTimeMs := pick body.mainTimeMs r.mainTimeMs,
                       isPrivate := body.isPrivate,
                       createdAt := now, phase := .LOBBY }
    let r2 :=
      if truthyS body.creatorName && truthyS body.creatorPlayerId then
        { r1 with players := r1.players ++
            [⟨body.creatorPlayerId.getD "", body.creatorName, now⟩] }
      else r1
    let r3 := match body.queuedPlayers with
      | some qps =>
        qps.foldl (fun acc qp =>
          if (acc.players.find? (·.id = qp.1)).isSome then acc
          else { acc with players := acc.players ++ [⟨qp.1, qp.2, now⟩] }) r2
      | none => r2
    let r' := save r3 now
    ⟨.ok none none none, r', r'⟩

/-! ## The room actor as a transition system

Each external request executes one handler against the in-memory room; the
carried state between requests is `this.room` (`HOut.mem`). -/

/-- One external operation on a `GameRoom`, with its request payload.  The
`engine` argument of the move operations stands for the external chess
library's behavior at the room's current position. -/
inductive Op where
  | init (body : InitBody) (genId : String)
  | join (pid : String) (name : Option String)
  | startBidding (pid : String)
  | submitBid (pid : String) (amount : Option Int)
  | chooseColor (pid : String) (color : String)
  | makeMove (pid : String) (move : Option String) (engine : ChessEngine)
  | timeForfeit (pid : String) (engine : ChessEngine)
  | rematch (pid : String) (agree : Bool)
  | leave (pid : String)
  | heartbeat (pid : String)
  | getState

/-- The in-memory room after dispatching one request at wall-clock `now`. -/
def step (r : Room) (op : Op) (now : Int) : Room :=
  match op with
  | .init body genId => (handleInit r body genId now).mem
  | .join pid name => (handleJoin r pid name now).mem
  | .startBidding pid => (handleStartBidding r pid now).mem
  | .submitBid pid amount => (handleSubmitBid r pid amount now).mem
  | .chooseColor pid color => (handleChooseColor r pid color now).mem
  | .makeMove pid move engine => (handleMakeMove r pid move engine now).mem
  | .timeForfeit pid engine => (handleTimeForfeit r pid engine now).mem
  | .rematch pid agree => (handleRematch r pid agree now).mem
  | .leave pid => (handleLeave r pid now).mem
  | .heartbeat pid => (handleHeartbeat r pid now).mem
  | .getState => (handleGetState r now).mem

/-- Reachable room states: a fresh `_defaultState` followed by any sequence
of operations at non-decreasing wall-clock times (`Date.now()` is monotone).
The `Int` component is the time of the last dispatched request. -/
inductive Reach : Room → Int → Prop where
  | start (t : Int) : Reach (defaultState t) t
  | step {r : Room} {t t' : Int} (op : Op) :
      Reach r t → t ≤ t' → Reach (step r op t') t'

/-! ## The matchmaking queues of `RoomIndex` -/

/-- One waiting player inside a time-control bucket. -/
structure QEntry where
  playerId : String
  name : Option String
  joinedAt : Int
  lastHeartbeat : Int
  deriving DecidableEq, Repr

/-- The persisted `queues` record: time-control key (`mainTimeMs.toString()`)
to list of waiting players, in JS object insertion order. -/
abbrev Queues := List (String × List QEntry)

/-- `TIME_CONTROLS`, as bucket keys. -/
def timeControlKeys : List String := ["300000", "600000", "900000"]

/-- `queues[timeKey] = []` when the bucket is missing. -/
def ensureBucket (timeKey : String) (q : Queues) : Queues :=
  if (alookup timeKey q).isSome then q else q ++ [(timeKey, [])]

/-- Replace the contents of one bucket. -/
def setBucket (timeKey : String) (b : List QEntry) : Queues → Queues
  | [] => []
  | (k, b') :: rest =>
    if k = timeKey then (k, b) :: rest else (k, b') :: setBucket timeKey b rest

/-- `queues[timeKey].find(p => p.playerId === playerId).lastHeartbeat = Date.now()`:
refresh the first matching entry. -/
def refreshFirst (pid : String) (now : Int) : List QEntry → List QEntry
  | [] => []
  | e :: rest =>
    if e.playerId = pid then { e with lastHeartbeat := now } :: rest
    else e :: refreshFirst pid now rest

/-- Add-or-refresh of one bucket, shared by `addToQueue` and `joinAll`. -/
def addOrRefresh (pid : String) (name : Option String) (now : Int)
    (b : List QEntry) : List QEntry :=
  if b.any (·.playerId = pid) then refreshFirst pid now b
  else b ++ [⟨pid, name, now, now⟩]

/-- `_cleanupStaleQueues`: drop entries idle for five minutes or more. -/
def cleanupStaleQueues (now : Int) (q : Queues) : Queues :=
  q.map (fun kb =>
    (kb.1, kb.2.filter (fun e =>
      now - (if e.lastHeartbeat != 0 then e.lastHeartbeat else e.joinedAt)
        < 5 * 60 * 1000)))

/-- The `/addToQueue` branch of `RoomIndex.fetch` (queue effect only; the
match directive in the response does not change the queues). -/
def addToQueue (pid : String) (name : Option String) (timeKey : String)
    (now : Int) (q : Queues) : Queues :=
  let q := ensureBucket timeKey q
  let b := (alookup timeKey q).getD []
  cleanupStaleQueues now (setBucket timeKey (addOrRefresh pid name now b) q)

/-- The `/joinAll` branch: add-or-refresh in every supported bucket. -/
def joinAllQueues (pid : String) (name : Option String) (now : Int)
    (q : Queues) : Queues :=
  let q := timeControlKeys.foldl (fun acc timeKey =>
    let acc := ensureBucket timeKey acc
    let b := (alookup timeKey acc).getD []
    setBucket timeKey (addOrRefresh pid name now b) acc) q
  cleanupStaleQueues now q

/-- The `/heartbeat` branch: refresh the first bucket containing the player. -/
def queueHeartbeat (pid : String) (now : Int) : Queues → Queues
  | [] => []
  | (k, b) :: rest =>
    if b.any (·.playerId = pid) then (k, refreshFirst pid now b) :: rest
    else (k, b) :: queueHeartbeat pid now rest

/-- The `/removeFromAllQueues` branch. -/
def removeFromAllQueues (pids : List String) (q : Queues) : Queues :=
  q.map (fun kb => (kb.1, kb.2.filter (fun e => !pids.contains e.playerId)))

/-- One queue-mutating request against `RoomIndex`. -/
inductive QOp where
  | addToQueue (pid : String) (name : Option String) (timeKey : String) (now : Int)
  | joinAll (pid : String) (name : Option String) (now : Int)
  | heartbeat (pid : String) (now : Int)
  | removeFromAllQueues (pids : List String)
  | cleanupStale (now : Int)

def qstep (q : Queues) : QOp → Queues
  | .addToQueue pid name timeKey now => addToQueue pid name timeKey now q
  | .joinAll pid name now => joinAllQueues pid name now q
  | .heartbeat pid now => queueHeartbeat pid now q
  | .removeFromAllQueues pids => removeFromAllQueues pids q
  | .cleanupStale now => cleanupStaleQueues now q

/-- Reachable queue states: the empty map (`storage.get('queues') || {}` on
first use) followed by any sequence of queue operations. -/
inductive QReach : Queues → Prop where
  | start : QReach []
  | step {q : Queues} (op : QOp) : QReach q → QReach (qstep q op)

/-- The effective bid of a player in a BIDDING round: the submitted amount,
or the `mainTimeMs` default filled in at the deadline. -/
def effectiveBid (r : Room) (id : String) : Int :=
  match alookup id r.bids with
  | some b => b.amount
  | none => r.mainTimeMs

/-- Inductive strengthening of the clock-sum claim: in PLAYING the clocks
and the winning bid are set, their sum is bounded by
`winningBidMs + mainTimeMs`, and `lastTickAt` does not exceed the time of
the last dispatched request; in COLOR_PICK the winning bid is set (so that
clock initialization on color choice starts from it). -/
def ClockInv (r : Room) (t : Int) : Prop :=
  (r.phase = .PLAYING →
    ∃ c w, r.clocks = some c ∧ r.winningBidMs = some w ∧
      c.whiteRemainingMs + c.blackRemainingMs ≤ w + r.mainTimeMs ∧
      c.lastTickAt ≤ t)
  ∧ (r.phase = .COLOR_PICK → r.winningBidMs.isSome)

/-- Each queue bucket lists pairwise-distinct player ids. -/
def BucketsUnique (q : Queues) : Prop :=
  ∀ kb ∈ q, (kb.2.map QEntry.playerId).Nodup

/-- Shape of every terminal `makeMove` outcome: a 15-second rematch window
for standard outcomes, a 10-second one for the insufficient-material
flag-fall draw, empty `rematchVotes`, frozen clocks. -/
def TerminalWindowSpec (o : HOut) (now : Int) : Prop :=
  ∀ res : String, ∀ reason w : Option String,
    o.resp = .ok (some res) reason w →
    o.mem.phase = .FINISHED ∧
    o.mem.rematchVotes = some [] ∧
    (∃ c, o.mem.clocks = some c ∧ c.frozenAt = some now) ∧
    o.mem.rematchWindowEnds =
      some (now + (if res = "draw" ∧ reason = some "timeout_but_opponent_cannot_mate"
                   then 10 * 1000 else 15 * 1000))

/-! ## Map lemmas -/

theorem alookup_aset_self (k : String) (v : α) (l : List (String × α)) :
    alookup k (aset k v l) = some v := by
  induction l with
  | nil => simp [aset, alookup]
  | cons hd tl ih =>
    by_cases h : hd.1 = k
    · simp [aset, alookup, h]
    · simpa [aset, alookup, h] using ih

theorem alookup_aset_ne {k k' : String} (h : k' ≠ k) (v : α) (l : List (String × α)) :
    alookup k (aset k' v l) = alookup k l := by
  induction l with
  | nil => simp [aset, alookup, h]
  | cons hd tl ih =>
    by_cases h2 : hd.1 = k'
    · simp [aset, alookup, h2, h]
    · by_cases h3 : hd.1 = k <;> simp [aset, alookup, h2, h3, Ne.symm h, ih]

/-! ## C1 -/

/-- C1: in a BIDDING round with two effective bid amounts (submitted, or
defaulted to `mainTimeMs` at the deadline) that are distinct, bid resolution
sets `winnerId` to the player with the strictly lower amount, `loserId` to
the other player, `winningBidMs` to the lower and `losingBidMs` to the
higher amount, and moves the room to COLOR_PICK with
`currentPicker = "winner"`. -/
theorem bid_resolution_lower_bid_wins (r : Room) (now : Int) (id1 id2 : String)
    (hphase : r.phase = .BIDDING)
    (hids : r.players.map (·.id) = [id1, id2])
    (hready : ((alookup id1 r.bids).isSome ∧ (alookup id2 r.bids).isSome)
              ∨ dlPassed r.bidDeadline now = true)
    (hne : effectiveBid r id1 ≠ effectiveBid r id2) :
    (resolveBidsIfNeeded r now).phase = .COLOR_PICK ∧
    (resolveBidsIfNeeded r now).currentPicker = some "winner" ∧
    (resolveBidsIfNeeded r now).winnerId =
      some (if effectiveBid r id1 < effectiveBid r id2 then id1 else id2) ∧
    (resolveBidsIfNeeded r now).loserId =
      some (if effectiveBid r id1 < effectiveBid r id2 then id2 else id1) ∧
    (resolveBidsIfNeeded r now).winningBidMs =
      some (min (effectiveBid r id1) (effectiveBid r id2)) ∧
    (resolveBidsIfNeeded r now).losingBidMs =
      some (max (effectiveBid r id1) (effectiveBid r id2)) := by
  have hid12 : id1 ≠ id2 := by
    intro h
    exact hne (by rw [h])
  unfold resolveBidsIfNeeded
  rw [hids]
  rcases hb1 : alookup id1 r.bids with _ | b1 <;>
    rcases hb2 : alookup id2 r.bids with _ | b2
  · -- both missing: the defaults coincide, contradicting distinctness
    have : effectiveBid r id1 = effectiveBid r id2 := by
      simp [effectiveBid, hb1, hb2]
    exact absurd this hne
  · -- only the first bid missing: deadline must have passed, default fills it
    have hdl : dlPassed r.bidDeadline now = true := by
      rcases hready with ⟨h1, _⟩ | h
      · rw [hb1] at h1; exact absurd h1 (by simp)
      · exact h
    have e1 : effectiveBid r id1 = r.mainTimeMs := by simp [effectiveBid, hb1]
    have e2 : effectiveBid r id2 = b2.amount := by simp [effectiveBid, hb2]
    rw [e1, e2] at hne ⊢
    rcases lt_trichotomy r.mainTimeMs b2.amount with hlt | heq | hgt
    · simp [hphase, hb1, hb2, hdl, alookup_aset_ne hid12,
        alookup_aset_ne hid12.symm, alookup_aset_self, save, hne, hlt,
        min_eq_left (le_of_lt hlt), max_eq_right (le_of_lt hlt)]
    · exact absurd heq hne
    · simp [hphase, hb1, hb2, hdl, alookup_aset_ne hid12,
        alookup_aset_ne hid12.symm, alookup_aset_self, save, hne,
        not_lt_of_gt hgt, min_eq_right (le_of_lt hgt), max_eq_left (le_of_lt hgt)]
  · -- only the second bid missing
    have hdl : dlPassed r.bidDeadline now = true := by
      rcases hready with ⟨_, h2⟩ | h
      · rw [hb2] at h2; exact absurd h2 (by simp)
      · exact h
    have e1 : effectiveBid r id1 = b1.amount := by simp [effectiveBid, hb1]
    have e2 : effectiveBid r id2 = r.mainTimeMs := by simp [effectiveBid, hb2]
    rw [e1, e2] at hne ⊢
    rcases lt_trichotomy b1.amount r.mainTimeMs with hlt | heq | hgt
    · simp [hphase, hb1, hb2, hdl, alookup_aset_ne hid12,
        alookup_aset_ne hid12.symm, alookup_aset_self, save, hne, hlt,
        min_eq_left (le_of_lt hlt), max_eq_right (le_of_lt hlt)]
    · exact absurd heq hne
    · simp [hphase, hb1, hb2, hdl, alookup_aset_ne hid12,
        alookup_aset_ne hid12.symm, alookup_aset_self, save, hne,
        not_lt_of_gt hgt, min_eq_right (le_of_lt hgt), max_eq_left (le_of_lt hgt)]
  · -- both present
    have e1 : effectiveBid r id1 = b1.amount := by simp [effectiveBid, hb1]
    have e2 : effectiveBid r id2 = b2.amount := by simp [effectiveBid, hb2]
    rw [e1, e2] at hne ⊢
    rcases lt_trichotomy b1.amount b2.amount with hlt | heq | hgt
    · simp [hphase, hb1, hb2, save, hne, hlt,
        min_eq_left (le_of_lt hlt), max_eq_right (le_of_lt hlt)]
    · exact absurd heq hne
    · simp [hphase, hb1, hb2, save, hne,
        not_lt_of_gt hgt, min_eq_right (le_of_lt hgt), max_eq_left (le_of_lt hgt)]

/-- Witness for `bid_resolution_lower_bid_wins`: a concrete two-player
BIDDING room with bids 1000 and 2000. -/
theorem bid_resolution_lower_bid_wins_witness :
    let r : Room := { defaultState 0 with
      phase := .BIDDING,
      players := [⟨"a", none, 0⟩, ⟨"b", none, 0⟩],
      bids := [("a", ⟨1000, 5⟩), ("b", ⟨2000, 6⟩)],
      bidDeadline := some 10000 }
    r.phase = .BIDDING ∧
    r.players.map (·.id) = ["a", "b"] ∧
    ((alookup "a" r.bids).isSome ∧ (alookup "b" r.bids).isSome) ∧
    effectiveBid r "a" ≠ effectiveBid r "b" ∧
    (resolveBidsIfNeeded r 7).phase = .COLOR_PICK ∧
    (resolveBidsIfNeeded r 7).currentPicker = some "winner" ∧
    (resolveBidsIfNeeded r 7).winnerId =
      some (if effectiveBid r "a" < effectiveBid r "b" then "a" else "b") := by
  intro r
  refine ⟨by decide, by decide, by decide, by decide, ?_⟩
  have h := bid_resolution_lower_bid_wins r 7 "a" "b" (by decide) (by decide)
    (Or.inl (by decide)) (by decide)
  exact ⟨h.1, h.2.1, h.2.2.1⟩

/-! ## C6 -/

/-- C6: when the two effective bid amounts are equal, resolution clears
`bids`, sets a fresh `bidDeadline` of `now + bidDurationMs`, and leaves the
room in BIDDING with `winnerId` (and the other resolution fields)
untouched — no winner is assigned. -/
theorem bid_resolution_tie_restart (r : Room) (now : Int) (id1 id2 : String)
    (hphase : r.phase = .BIDDING)
    (hids : r.players.map (·.id) = [id1, id2])
    (hready : ((alookup id1 r.bids).isSome ∧ (alookup id2 r.bids).isSome)
              ∨ dlPassed r.bidDeadline now = true)
    (heq : effectiveBid r id1 = effectiveBid r id2) :
    (resolveBidsIfNeeded r now).phase = .BIDDING ∧
    (resolveBidsIfNeeded r now).bids = [] ∧
    (resolveBidsIfNeeded r now).bidDeadline = some (now + r.bidDurationMs) ∧
    (resolveBidsIfNeeded r now).winnerId = r.winnerId ∧
    (resolveBidsIfNeeded r now).loserId = r.loserId ∧
    (resolveBidsIfNeeded r now).winningBidMs = r.winningBidMs ∧
    (resolveBidsIfNeeded r now).losingBidMs = r.losingBidMs := by
  unfold resolveBidsIfNeeded
  rw [hids]
  by_cases hid12 : id1 = id2
  · subst hid12
    rcases hb1 : alookup id1 r.bids with _ | b1
    · have hdl : dlPassed r.bidDeadline now = true := by
        rcases hready with ⟨h1, _⟩ | h
        · rw [hb1] at h1; exact absurd h1 (by simp)
        · exact h
      simp [hphase, hb1, hdl, alookup_aset_self, save]
    · simp [hphase, hb1, save]
  · rcases hb1 : alookup id1 r.bids with _ | b1 <;>
      rcases hb2 : alookup id2 r.bids with _ | b2
    · have hdl : dlPassed r.bidDeadline now = true := by
        rcases hready with ⟨h1, _⟩ | h
        · rw [hb1] at h1; exact absurd h1 (by simp)
        · exact h
      simp [hphase, hb1, hb2, hdl, alookup_aset_ne hid12,
        alookup_aset_ne (Ne.symm hid12), alookup_aset_self, save]
    · have hdl : dlPassed r.bidDeadline now = true := by
        rcases hready with ⟨h1, _⟩ | h
        · rw [hb1] at h1; exact absurd h1 (by simp)
        · exact h
      have e1 : effectiveBid r id1 = r.mainTimeMs := by simp [effectiveBid, hb1]
      have e2 : effectiveBid r id2 = b2.amount := by simp [effectiveBid, hb2]
      rw [e1, e2] at heq
      simp [hphase, hb1, hb2, hdl, alookup_aset_ne hid12,
        alookup_aset_ne (Ne.symm hid12), alookup_aset_self, save, heq]
    · have hdl : dlPassed r.bidDeadline now = true := by
        rcases hready with ⟨_, h2⟩ | h
        · rw [hb2] at h2; exact absurd h2 (by simp)
        · exact h
      have e1 : effectiveBid r id1 = b1.amount := by simp [effectiveBid, hb1]
      have e2 : effectiveBid r id2 = r.mainTimeMs := by simp [effectiveBid, hb2]
      rw [e1, e2] at heq
      simp [hphase, hb1, hb2, hdl, alookup_aset_ne hid12,
        alookup_aset_ne (Ne.symm hid12), alookup_aset_self, save, heq]
    · have e1 : effectiveBid r id1 = b1.amount := by simp [effectiveBid, hb1]
      have e2 : effectiveBid r id2 = b2.amount := by simp [effectiveBid, hb2]
      rw [e1, e2] at heq
      simp [hphase, hb1, hb2, save, heq]

/-- Witness for `bid_resolution_tie_restart`: both players bid 50000. -/
theorem bid_resolution_tie_restart_witness :
    let r : Room := { defaultState 0 with
      phase := .BIDDING,
      players := [⟨"a", none, 0⟩, ⟨"b", none, 0⟩],
      bids := [("a", ⟨50000, 5⟩), ("b", ⟨50000, 6⟩)],
      bidDeadline := some 10000 }
    r.phase = .BIDDING ∧
    effectiveBid r "a" = effectiveBid r "b" ∧
    (resolveBidsIfNeeded r 7).phase = .BIDDING ∧
    (resolveBidsIfNeeded r 7).bids = [] ∧
    (resolveBidsIfNeeded r 7).bidDeadline = some (7 + r.bidDurationMs) ∧
    (resolveBidsIfNeeded r 7).winnerId = r.winnerId := by
  intro r
  refine ⟨by decide, by decide, ?_⟩
  have h := bid_resolution_tie_restart r 7 "a" "b" (by decide) (by decide)
    (Or.inl (by decide)) (by decide)
  exact ⟨h.1, h.2.1, h.2.2.1, h.2.2.2.1⟩

/-! ## C10 -/

/-- C10: `leave(playerId)` succeeds in every phase: it returns `ok`, filters
the matching entry out of `players` (a no-op when the player is absent), and
leaves `phase`, `colors`, `clocks`, `bids` and `moves` unchanged — in
particular, a leave during PLAYING keeps the room in PLAYING with `colors`
still mapping the departed player. -/
theorem leave_always_succeeds (r : Room) (pid : String) (now : Int)
    (hpid : pid ≠ "") :
    (handleLeave r pid now).resp = .ok none none none ∧
    (handleLeave r pid now).mem.players = r.players.filter (·.id ≠ pid) ∧
    (handleLeave r pid now).mem.phase = r.phase ∧
    (handleLeave r pid now).mem.colors = r.colors ∧
    (handleLeave r pid now).mem.clocks = r.clocks ∧
    (handleLeave r pid now).mem.bids = r.bids ∧
    (handleLeave r pid now).mem.moves = r.moves := by
  unfold handleLeave
  simp only [hpid, if_false, if_neg hpid]
  split <;> simp [save]

/-- Witness for `leave_always_succeeds`: player `"a"` leaves a PLAYING room;
the room stays in PLAYING and `colors` still maps `"a"`. -/
theorem leave_always_succeeds_witness :
    let r : Room := { defaultState 0 with
      phase := .PLAYING,
      players := [⟨"a", none, 0⟩, ⟨"b", none, 0⟩],
      colors := [("a", "white"), ("b", "black")],
      clocks := some ⟨1000, 300000, 5, "white", none⟩ }
    ("a" : String) ≠ "" ∧
    (handleLeave r "a" 9).resp = .ok none none none ∧
    (handleLeave r "a" 9).mem.players = r.players.filter (·.id ≠ "a") ∧
    (handleLeave r "a" 9).mem.phase = .PLAYING ∧
    (handleLeave r "a" 9).mem.colors = [("a", "white"), ("b", "black")] := by
  intro r
  have h := leave_always_succeeds r "a" 9 (by decide)
  exact ⟨by decide, h.1, h.2.1, by rw [h.2.2.1], by rw [h.2.2.2.1]⟩

/-! ## C3 -/

/-- C3 (code bug): the unanimous-yes rematch reset returns the room to LOBBY
and clears `bids`, `clocks`, `moves`, `colors`, `winnerId`, `loserId`, and
preserves `players`, `mainTimeMs`, `bidDurationMs` and `choiceDurationMs` —
but it does **not** clear `gameFen`, which still holds the final position of
the previous game (so the next game of the rematch would resume from it).
The claim and the spec (§3 invariant 8, §8 I5) list `gameFen` among the
cleared fields. -/
theorem rematch_reset_keeps_gameFen :
    let r : Room := { defaultState 0 with
      phase := .FINISHED,
      players := [⟨"a", none, 0⟩, ⟨"b", none, 0⟩],
      rematchWindowEnds := some 100000,
      rematchVotes := some [("a", true)],
      gameFen := some "6k1/8/8/8/8/5q2/8/6K1 w - - 0 50",
      winnerId := some "a", loserId := some "b",
      winningBidMs := some 30000, losingBidMs := some 45000,
      colors := [("a", "white"), ("b", "black")],
      clocks := some ⟨100, 200, 50, "white", some 60⟩,
      moves := [⟨"a", "e2e4", 10⟩] }
    (handleRematch r "b" true 50).resp = .ok none none none ∧
    (handleRematch r "b" true 50).mem.phase = .LOBBY ∧
    (handleRematch r "b" true 50).mem.bids = [] ∧
    (handleRematch r "b" true 50).mem.clocks = none ∧
    (handleRematch r "b" true 50).mem.moves = [] ∧
    (handleRematch r "b" true 50).mem.colors = [] ∧
    (handleRematch r "b" true 50).mem.winnerId = none ∧
    (handleRematch r "b" true 50).mem.loserId = none ∧
    (handleRematch r "b" true 50).mem.players = r.players ∧
    (handleRematch r "b" true 50).mem.mainTimeMs = r.mainTimeMs ∧
    (handleRematch r "b" true 50).mem.bidDurationMs = r.bidDurationMs ∧
    (handleRematch r "b" true 50).mem.choiceDurationMs = r.choiceDurationMs ∧
    (handleRematch r "b" true 50).mem.gameFen =
      some "6k1/8/8/8/8/5q2/8/6K1 w - - 0 50" := by
  decide

/-! ## C2 -/

set_option maxHeartbeats 1000000 in
/-- C2 counterexample: a time-forfeit flag-fall inside `makeMove` (a
"standard outcome") opens a **15-second** rematch window, not the 60-second
window the claim states.  White flags with 100 ms left after 1000 ms
elapsed; black still has a queen, so the opponent can mate. -/
theorem makeMove_standard_window_is_15s_not_60s :
    let r : Room := { defaultState 0 with
      phase := .PLAYING,
      players := [⟨"a", none, 0⟩, ⟨"b", none, 0⟩],
      colors := [("a", "white"), ("b", "black")],
      winningBidMs := some 30000,
      clocks := some ⟨100, 300000, 1000, "white", none⟩ }
    let eng : ChessEngine :=
      { board := [⟨'w', .k⟩, ⟨'b', .k⟩, ⟨'b', .q⟩], tryMove := fun _ _ _ => none }
    (handleMakeMove r "a" (some "e2e4") eng 2000).resp =
      .ok (some "time_forfeit") none (some "b") ∧
    (handleMakeMove r "a" (some "e2e4") eng 2000).mem.phase = .FINISHED ∧
    (handleMakeMove r "a" (some "e2e4") eng 2000).mem.rematchWindowEnds =
      some (2000 + 15 * 1000) ∧
    (handleMakeMove r "a" (some "e2e4") eng 2000).mem.rematchWindowEnds ≠
      some (2000 + 60 * 1000) := by
  decide

/-- C2 as amended: every terminal transition out of PLAYING via `makeMove`
(checkmate, stalemate/draw, time forfeit, insufficient-material timeout)
opens a **15-second** rematch window for standard outcomes and a 10-second
window for the insufficient-material flag-fall case, initializes
`rematchVotes` to the empty map, and sets `clocks.frozenAt` to the current
time.  (The 60-second window lives only in the separate `/timeForfeit`
endpoint.) -/
theorem drawReason_ne_timeout {a b c d : Bool} {s : String}
    (h : (if a = true then some "stalemate"
          else if b = true then some "insufficient_material"
          else if c = true then some "threefold_repetition"
          else if d = true then some "draw" else none) = some s) :
    s ≠ "timeout_but_opponent_cannot_mate" := by
  intro hs
  subst hs
  split at h <;> simp_all <;> (split at h <;> simp_all) <;>
    (split at h <;> simp_all)

theorem flagFallOutcome_spec (rm : Room) (clocks1 : Clocks) (pc : String)
    (eng : ChessEngine) (now : Int) :
    TerminalWindowSpec (flagFallOutcome rm clocks1 pc eng now) now := by
  intro res reason w h
  generalize hout : flagFallOutcome rm clocks1 pc eng now = o at h ⊢
  obtain ⟨resp, mem, per⟩ := o
  unfold flagFallOutcome at hout
  dsimp only [] at hout
  repeat' split at hout
  all_goals (
    injection hout with h1 h2 h3
    subst h1
    subst h2
    dsimp only [] at h
    cases h
    simp [save])

theorem engineMoveOutcome_spec (rm : Room) (clocks1 : Clocks) (pid mv : String)
    (em : EngineMove) (now : Int) :
    TerminalWindowSpec (engineMoveOutcome rm clocks1 pid mv em now) now := by
  intro res reason w h
  generalize hout : engineMoveOutcome rm clocks1 pid mv em now = o at h ⊢
  obtain ⟨resp, mem, per⟩ := o
  unfold engineMoveOutcome at hout
  dsimp only [] at hout
  repeat' split at hout
  all_goals (
    injection hout with h1 h2 h3
    subst h1
    subst h2
    dsimp only [] at h
    cases h)
  all_goals try (
    rename ((if _ = true then some "stalemate"
             else if _ = true then some "insufficient_material"
             else if _ = true then some "threefold_repetition"
             else if _ = true then some "draw" else none) = some _) => heq
    have hne := drawReason_ne_timeout heq
    simp [save, hne])
  all_goals simp [save]

set_option maxHeartbeats 1000000 in
theorem makeMove_terminal_windows (r : Room) (pid : String) (mv : Option String)
    (eng : ChessEngine) (now : Int) (res : String) (reason : Option String)
    (w : Option String)
    (h : (handleMakeMove r pid mv eng now).resp = .ok (some res) reason w) :
    (handleMakeMove r pid mv eng now).mem.phase = .FINISHED ∧
    (handleMakeMove r pid mv eng now).mem.rematchVotes = some [] ∧
    (∃ c, (handleMakeMove r pid mv eng now).mem.clocks = some c ∧
      c.frozenAt = some now) ∧
    (handleMakeMove r pid mv eng now).mem.rematchWindowEnds =
      some (now + (if res = "draw" ∧ reason = some "timeout_but_opponent_cannot_mate"
                   then 10 * 1000 else 15 * 1000)) := by
  have spec : TerminalWindowSpec (handleMakeMove r pid mv eng now) now := by
    unfold handleMakeMove
    dsimp only []
    repeat' split
    all_goals first
      | exact flagFallOutcome_spec _ _ _ _ _
      | exact engineMoveOutcome_spec _ _ _ _ _ _
      | (intro res reason w h
         exact absurd h (by simp))
  exact spec res reason w h

set_option maxHeartbeats 1000000 in
/-- Witness for `makeMove_terminal_windows`: white flags while black has
only a lone knight — the insufficient-material flag-fall draw with its
10-second window. -/
theorem makeMove_terminal_windows_witness :
    let r : Room := { defaultState 0 with
      phase := .PLAYING,
      players := [⟨"a", none, 0⟩, ⟨"b", none, 0⟩],
      colors := [("a", "white"), ("b", "black")],
      winningBidMs := some 30000,
      clocks := some ⟨100, 300000, 1000, "white", none⟩ }
    let eng : ChessEngine :=
      { board := [⟨'w', .k⟩, ⟨'b', .k⟩, ⟨'b', .n⟩], tryMove := fun _ _ _ => none }
    (handleMakeMove r "a" (some "e2e4") eng 2000).resp =
      .ok (some "draw") (some "timeout_but_opponent_cannot_mate") none ∧
    ((handleMakeMove r "a" (some "e2e4") eng 2000).mem.phase = .FINISHED ∧
     (handleMakeMove r "a" (some "e2e4") eng 2000).mem.rematchVotes = some [] ∧
     (∃ c, (handleMakeMove r "a" (some "e2e4") eng 2000).mem.clocks = some c ∧
       c.frozenAt = some 2000) ∧
     (handleMakeMove r "a" (some "e2e4") eng 2000).mem.rematchWindowEnds =
       some (2000 + (if ("draw" : String) = "draw" ∧
                        (some "timeout_but_opponent_cannot_mate" : Option String) =
                          some "timeout_but_opponent_cannot_mate"
                     then 10 * 1000 else 15 * 1000))) := by
  intro r eng
  exact ⟨by decide,
    makeMove_terminal_windows r "a" (some "e2e4") eng 2000 "draw"
      (some "timeout_but_opponent_cannot_mate") none (by decide)⟩

/-! ## C8 -/

set_option maxHeartbeats 1000000 in
/-- C8 counterexample: the move string `"a1b9"` (4 characters, but `"b9"` is
not a square in `[a-h][1-8]`) is **not** rejected as `invalid_move_format`:
the only format check is `typeof move === 'string' && move.length >= 4`, and
the string is handed to the external engine, whose refusal surfaces as
`illegal_move`. -/
theorem makeMove_no_square_validation :
    let r : Room := { defaultState 0 with
      phase := .PLAYING,
      players := [⟨"a", none, 0⟩, ⟨"b", none, 0⟩],
      colors := [("a", "white"), ("b", "black")],
      winningBidMs := some 30000,
      clocks := some ⟨300000, 300000, 1000, "white", none⟩ }
    let eng : ChessEngine :=
      { board := [⟨'w', .k⟩, ⟨'b', .k⟩], tryMove := fun _ _ _ => none }
    (handleMakeMove r "a" (some "a1b9") eng 2000).resp = .err "illegal_move" ∧
    (handleMakeMove r "a" (some "a1b9") eng 2000).resp ≠
      .err "invalid_move_format" := by
  decide

theorem engineMoveOutcome_not_err (rm : Room) (clocks1 : Clocks) (pid mv : String)
    (em : EngineMove) (now : Int) (code : String) :
    (engineMoveOutcome rm clocks1 pid mv em now).resp ≠ .err code := by
  unfold engineMoveOutcome
  dsimp only []
  repeat' split
  all_goals simp

/-- C8 as amended: with the phase/turn/clock preconditions met, `makeMove`
rejects with `invalid_move_format` exactly the moves that are not a string
or are shorter than 4 characters; every other move string — whatever its
square coordinates, length, or missing promotion letter — is submitted to
the external engine and rejected with `illegal_move` exactly when the
engine refuses it. -/
theorem makeMove_format_check (r : Room) (pid : String) (move : Option String)
    (eng : ChessEngine) (now : Int) (pc : String) (ck : Clocks)
    (hphase : r.phase = .PLAYING)
    (hcolor : alookup pid r.colors = some pc)
    (hclocks : r.clocks = some ck)
    (hturn : pc = ck.turn)
    (hnoflag : moverFlagged pc (deductedClocks ck pc now) = false) :
    ((handleMakeMove r pid move eng now).resp = .err "invalid_move_format" ↔
      (move = none ∨ ∃ mv, move = some mv ∧ mv.length < 4)) ∧
    (∀ mv, move = some mv → ¬(mv.length < 4) →
      ((handleMakeMove r pid move eng now).resp = .err "illegal_move" ↔
        eng.tryMove (String.mk (mv.toList.take 2))
          (String.mk ((mv.toList.drop 2).take 2))
          (if mv.length ≥ 5 then mv.toList.get? 4 else none) = none)) := by
  unfold handleMakeMove
  simp only [hphase, hcolor, hclocks, ← hturn, hnoflag, ne_eq, eq_self_iff_true,
    not_true, reduceIte, ite_false, ite_true, Bool.false_eq_true, if_false, if_true]
  constructor
  · rcases move with _ | mv
    · simp
    · by_cases hlen : mv.length < 4
      · simp [hlen]
      · simp only [if_neg hlen]
        split
        · simp [hlen]
        · simp [hlen, engineMoveOutcome_not_err]
  · intro mv hmv hlen
    subst hmv
    simp only [if_neg hlen]
    split
    · next heq => exact ⟨fun _ => heq, fun _ => rfl⟩
    · next em heq =>
      constructor
      · intro hc
        exact absurd hc (engineMoveOutcome_not_err _ _ _ _ _ _ _)
      · intro hc
        rw [hc] at heq
        exact absurd heq (by simp)

set_option maxHeartbeats 1000000 in
/-- Witness for `makeMove_format_check`: a PLAYING room with healthy clocks
and the 4-character move `"a1b9"`, which passes the length check and reaches
the engine. -/
theorem makeMove_format_check_witness :
    let r : Room := { defaultState 0 with
      phase := .PLAYING,
      players := [⟨"a", none, 0⟩, ⟨"b", none, 0⟩],
      colors := [("a", "white"), ("b", "black")],
      winningBidMs := some 30000,
      clocks := some ⟨300000, 300000, 1000, "white", none⟩ }
    let eng : ChessEngine :=
      { board := [⟨'w', .k⟩, ⟨'b', .k⟩], tryMove := fun _ _ _ => none }
    let ck : Clocks := ⟨300000, 300000, 1000, "white", none⟩
    r.phase = .PLAYING ∧
    moverFlagged "white" (deductedClocks ck "white" 2000) = false ∧
    (((handleMakeMove r "a" (some "a1b9") eng 2000).resp = .err "invalid_move_format" ↔
       ((some "a1b9" : Option String) = none ∨
         ∃ mv, (some "a1b9" : Option String) = some mv ∧ mv.length < 4)) ∧
     (∀ mv, (some "a1b9" : Option String) = some mv → ¬(mv.length < 4) →
       ((handleMakeMove r "a" (some "a1b9") eng 2000).resp = .err "illegal_move" ↔
         eng.tryMove (String.mk (mv.toList.take 2))
           (String.mk ((mv.toList.drop 2).take 2))
           (if mv.length ≥ 5 then mv.toList.get? 4 else none) = none))) := by
  intro r eng ck
  exact ⟨by decide, by decide,
    makeMove_format_check r "a" (some "a1b9") eng 2000 "white" ck
      (by decide) (by decide) (by decide) (by decide) (by decide)⟩

/-! ## C5 -/

/-- The implemented `canEverMate` is false exactly when the claim's
condition holds: no queen, rook or pawn among the opponent's non-king
pieces, and at most one minor piece. -/
theorem canEverMate_false_iff (board : List Piece) (letter : Char) :
    canEverMate board letter = false ↔
      ((∀ p ∈ opponentNonKing board letter,
          ¬(p.ptype = .q ∨ p.ptype = .r ∨ p.ptype = .p)) ∧
       ((opponentNonKing board letter).filter
          (fun p => p.ptype = .b || p.ptype = .n)).length ≤ 1) := by
  unfold canEverMate
  simp only [Bool.or_eq_false_iff, List.any_eq_false, gt_iff_lt, not_lt,
    decide_eq_false_iff_not, Bool.or_eq_true, decide_eq_true_eq]
  constructor
  · rintro ⟨hnomajor, hlen⟩
    have hfil : (opponentNonKing board letter).filter
        (fun p => p.ptype = .b || p.ptype = .n) = opponentNonKing board letter := by
      apply List.filter_eq_self.mpr
      intro p hp
      have hq := hnomajor p hp
      have hk : p.ptype ≠ .k := by
        have := List.of_mem_filter hp
        simpa using this
      cases hpt : p.ptype <;> simp_all
    refine ⟨fun p hp => by have := hnomajor p hp; tauto, ?_⟩
    rw [hfil]
    omega
  · rintro ⟨hnomajor, hlen⟩
    have hfil : (opponentNonKing board letter).filter
        (fun p => p.ptype = .b || p.ptype = .n) = opponentNonKing board letter := by
      apply List.filter_eq_self.mpr
      intro p hp
      have hq := hnomajor p hp
      have hk : p.ptype ≠ .k := by
        have := List.of_mem_filter hp
        simpa using this
      cases hpt : p.ptype <;> simp_all
    rw [hfil] at hlen
    exact ⟨fun p hp => by have := hnomajor p hp; tauto, by omega⟩

set_option maxHeartbeats 1000000 in
/-- C5: when the mover's clock is ≤ 0 after the elapsed-time deduction, the
game finishes as a draw (`winnerId = null`, reason
`timeout_but_opponent_cannot_mate`) exactly when the opponent's non-king
material contains no queen, rook or pawn and at most one minor piece;
otherwise it finishes as `time_forfeit` with the opponent as `winnerId`. -/
theorem makeMove_flagfall_material (r : Room) (P1 P2 : Player) (pid : String)
    (move : Option String) (eng : ChessEngine) (now : Int) (pc cP1 cP2 : String)
    (ck : Clocks)
    (hphase : r.phase = .PLAYING)
    (hplayers : r.players = [P1, P2])
    (hid1 : P1.id ≠ "") (hid2 : P2.id ≠ "")
    (hcol1 : alookup P1.id r.colors = some cP1)
    (hcol2 : alookup P2.id r.colors = some cP2)
    (hcc : cP1 ≠ cP2)
    (hmover : pid = P1.id ∨ pid = P2.id)
    (hcolor : alookup pid r.colors = some pc)
    (hclocks : r.clocks = some ck)
    (hturn : pc = ck.turn)
    (hflag : moverFlagged pc (deductedClocks ck pc now) = true) :
    (((∀ p ∈ opponentNonKing eng.board (if pc = "white" then 'b' else 'w'),
         ¬(p.ptype = .q ∨ p.ptype = .r ∨ p.ptype = .p)) ∧
      ((opponentNonKing eng.board (if pc = "white" then 'b' else 'w')).filter
         (fun p => p.ptype = .b || p.ptype = .n)).length ≤ 1) →
       (handleMakeMove r pid move eng now).resp =
         .ok (some "draw") (some "timeout_but_opponent_cannot_mate") none ∧
       (handleMakeMove r pid move eng now).mem.phase = .FINISHED ∧
       (handleMakeMove r pid move eng now).mem.winnerId = none) ∧
    (¬((∀ p ∈ opponentNonKing eng.board (if pc = "white" then 'b' else 'w'),
         ¬(p.ptype = .q ∨ p.ptype = .r ∨ p.ptype = .p)) ∧
      ((opponentNonKing eng.board (if pc = "white" then 'b' else 'w')).filter
         (fun p => p.ptype = .b || p.ptype = .n)).length ≤ 1) →
       (handleMakeMove r pid move eng now).resp =
         .ok (some "time_forfeit") none
           (some (if pid = P1.id then P2.id else P1.id)) ∧
       (handleMakeMove r pid move eng now).mem.phase = .FINISHED ∧
       (handleMakeMove r pid move eng now).mem.winnerId =
         some (if pid = P1.id then P2.id else P1.id)) := by
  unfold handleMakeMove
  simp only [hphase, hcolor, hclocks, ← hturn, hflag, ne_eq, eq_self_iff_true,
    not_true, reduceIte, ite_false, ite_true, if_false, if_true]
  constructor
  · intro hC
    have hcem : canEverMate eng.board (if pc = "white" then 'b' else 'w') = false :=
      (canEverMate_false_iff _ _).mpr hC
    unfold flagFallOutcome
    simp [hcem, save]
  · intro hC
    have hcem : canEverMate eng.board (if pc = "white" then 'b' else 'w') = true := by
      cases h : canEverMate eng.board (if pc = "white" then 'b' else 'w')
      · exact absurd ((canEverMate_false_iff _ _).mp h) hC
      · rfl
    unfold flagFallOutcome
    simp only [hcem, Bool.not_true, Bool.false_eq_true, if_false, reduceIte]
    unfold opponentOf
    dsimp only []
    simp only [apply_ite Room.players, apply_ite Room.colors, ite_self]
    rw [hplayers]
    rcases hmover with hm | hm
    · have hpc1 : cP1 = pc := by
        rw [hm] at hcolor
        rw [hcolor] at hcol1
        injection hcol1 with e
        exact e.symm
      have hfind :
          List.find? (fun p => alookup p.id r.colors ≠ some pc) [P1, P2] = some P2 := by
        rw [List.find?_cons_of_neg, List.find?_cons_of_pos]
        · have hne2 : cP2 ≠ pc := fun h => hcc (hpc1.trans h.symm)
          simp [hcol2, hne2]
        · simp [hcol1, hpc1]
      rw [hfind]
      simp [hm, hid2, save]
    · by_cases hm1 : pid = P1.id
      · have hpc1 : cP1 = pc := by
          rw [hm1] at hcolor
          rw [hcolor] at hcol1
          injection hcol1 with e
          exact e.symm
        have hfind :
            List.find? (fun p => alookup p.id r.colors ≠ some pc) [P1, P2] = some P2 := by
          rw [List.find?_cons_of_neg, List.find?_cons_of_pos]
          · have hne2 : cP2 ≠ pc := fun h => hcc (hpc1.trans h.symm)
            simp [hcol2, hne2]
          · simp [hcol1, hpc1]
        rw [hfind]
        simp [hm1, hid2, save]
      · have hpc2 : cP2 = pc := by
          rw [hm] at hcolor
          rw [hcolor] at hcol2
          injection hcol2 with e
          exact e.symm
        have hfind :
            List.find? (fun p => alookup p.id r.colors ≠ some pc) [P1, P2] = some P1 := by
          rw [List.find?_cons_of_pos]
          have hne1 : cP1 ≠ pc := fun h => hcc (h.trans hpc2.symm)
          simp [hcol1, hne1]
        rw [hfind]
        simp [hm1, hid1, save]

set_option maxHeartbeats 1000000 in
/-- Witness for `makeMove_flagfall_material`: white flags while black still
has a queen; the opponent can mate, so the forfeit branch applies. -/
theorem makeMove_flagfall_material_witness :
    let P1 : Player := ⟨"a", none, 0⟩
    let P2 : Player := ⟨"b", none, 0⟩
    let r : Room := { defaultState 0 with
      phase := .PLAYING,
      players := [P1, P2],
      colors := [("a", "white"), ("b", "black")],
      winningBidMs := some 30000,
      clocks := some ⟨100, 300000, 1000, "white", none⟩ }
    let eng : ChessEngine :=
      { board := [⟨'w', .k⟩, ⟨'b', .k⟩, ⟨'b', .q⟩], tryMove := fun _ _ _ => none }
    moverFlagged "white" (deductedClocks ⟨100, 300000, 1000, "white", none⟩ "white" 2000)
      = true ∧
    ¬((∀ p ∈ opponentNonKing eng.board (if ("white" : String) = "white" then 'b' else 'w'),
         ¬(p.ptype = .q ∨ p.ptype = .r ∨ p.ptype = .p)) ∧
      ((opponentNonKing eng.board (if ("white" : String) = "white" then 'b' else 'w')).filter
         (fun p => p.ptype = .b || p.ptype = .n)).length ≤ 1) ∧
    (handleMakeMove r "a" (some "e2e4") eng 2000).resp =
      .ok (some "time_forfeit") none (some (if ("a" : String) = P1.id then P2.id else P1.id)) ∧
    (handleMakeMove r "a" (some "e2e4") eng 2000).mem.phase = .FINISHED ∧
    (handleMakeMove r "a" (some "e2e4") eng 2000).mem.winnerId =
      some (if ("a" : String) = P1.id then P2.id else P1.id) := by
  intro P1 P2 r eng
  have h := makeMove_flagfall_material r P1 P2 "a" (some "e2e4") eng 2000
    "white" "white" "black" ⟨100, 300000, 1000, "white", none⟩
    (by decide) (by decide) (by decide) (by decide) (by decide) (by decide)
    (by decide) (by decide) (by decide) (by decide) (by decide) (by decide)
  exact ⟨by decide, by decide, h.2 (by decide)⟩

/-! ## C4 -/

/-- C4 counterexample: `startBidding` on an expired pending start request
returns the error `start_request_expired` **and** commits a mutation: the
pending request is cleared and persisted before the error is returned
(`_handleStartBidding`, lines 272–275). -/
theorem startBidding_expired_error_mutates :
    let r : Room := { defaultState 0 with
      players := [⟨"a", none, 0⟩, ⟨"b", none, 0⟩],
      startRequestedBy := some "b",
      startConfirmDeadline := some 100 }
    (handleStartBidding r "a" 200).resp = .err "start_request_expired" ∧
    (handleStartBidding r "a" 200).per ≠ r ∧
    (handleStartBidding r "a" 200).per.startRequestedBy = none ∧
    r.startRequestedBy = some "b" := by
  decide

theorem flagFallOutcome_not_err (rm : Room) (clocks1 : Clocks) (pc : String)
    (eng : ChessEngine) (now : Int) (code : String) :
    (flagFallOutcome rm clocks1 pc eng now).resp ≠ .err code := by
  unfold flagFallOutcome
  dsimp only []
  repeat' split
  all_goals simp

set_option maxHeartbeats 2000000 in
/-- C4 as amended: an error response leaves the room unchanged — in memory
and persisted — **except** for three deadline-driven maintenance paths that
persist a mutation together with the error (`join`/`room_too_old`,
`startBidding`/`start_request_expired`, `submitBid`/`bidding_closed`), and
for `makeMove`'s `invalid_move_format`/`illegal_move`, which leave the
elapsed-time clock deduction in the in-memory room while persisting
nothing. -/
theorem error_responses_no_commit :
    (∀ (r : Room) (pid : String) (name : Option String) (now : Int) (e : String),
      (handleJoin r pid name now).resp = .err e → e ≠ "room_too_old" →
      (handleJoin r pid name now).mem = r ∧ (handleJoin r pid name now).per = r) ∧
    (∀ (r : Room) (pid : String) (now : Int) (e : String),
      (handleStartBidding r pid now).resp = .err e → e ≠ "start_request_expired" →
      (handleStartBidding r pid now).mem = r ∧ (handleStartBidding r pid now).per = r) ∧
    (∀ (r : Room) (pid : String) (amount : Option Int) (now : Int) (e : String),
      (handleSubmitBid r pid amount now).resp = .err e → e ≠ "bidding_closed" →
      (handleSubmitBid r pid amount now).mem = r ∧
        (handleSubmitBid r pid amount now).per = r) ∧
    (∀ (r : Room) (pid color : String) (now : Int) (e : String),
      (handleChooseColor r pid color now).resp = .err e →
      (handleChooseColor r pid color now).mem = r ∧
        (handleChooseColor r pid color now).per = r) ∧
    (∀ (r : Room) (pid : String) (mv : Option String) (eng : ChessEngine)
        (now : Int) (e : String),
      (handleMakeMove r pid mv eng now).resp = .err e →
      (handleMakeMove r pid mv eng now).per = r ∧
        (e ≠ "invalid_move_format" → e ≠ "illegal_move" →
          (handleMakeMove r pid mv eng now).mem = r)) ∧
    (∀ (r : Room) (pid : String) (agree : Bool) (now : Int) (e : String),
      (handleRematch r pid agree now).resp = .err e →
      (handleRematch r pid agree now).mem = r ∧
        (handleRematch r pid agree now).per = r) := by
  refine ⟨?_, ?_, ?_, ?_, ?_, ?_⟩
  · -- join
    intro r pid name now e h hne
    generalize hout : handleJoin r pid name now = o at h ⊢
    obtain ⟨resp, mem, per⟩ := o
    unfold handleJoin at hout
    dsimp only [] at hout
    repeat' split at hout
    all_goals rw [← hout] at h ⊢
    all_goals dsimp only [] at h
    all_goals cases h
    all_goals first
      | exact absurd rfl hne
      | exact ⟨rfl, rfl⟩
  · -- startBidding
    intro r pid now e h hne
    generalize hout : handleStartBidding r pid now = o at h ⊢
    obtain ⟨resp, mem, per⟩ := o
    unfold handleStartBidding stageStartRequest at hout
    dsimp only [] at hout
    repeat' split at hout
    all_goals rw [← hout] at h ⊢
    all_goals dsimp only [] at h
    all_goals cases h
    all_goals first
      | exact absurd rfl hne
      | exact ⟨rfl, rfl⟩
  · -- submitBid
    intro r pid amount now e h hne
    generalize hout : handleSubmitBid r pid amount now = o at h ⊢
    obtain ⟨resp, mem, per⟩ := o
    unfold handleSubmitBid at hout
    dsimp only [] at hout
    repeat' split at hout
    all_goals rw [← hout] at h ⊢
    all_goals dsimp only [] at h
    all_goals cases h
    all_goals first
      | exact absurd rfl hne
      | exact ⟨rfl, rfl⟩
  · -- chooseColor
    intro r pid color now e h
    generalize hout : handleChooseColor r pid color now = o at h ⊢
    obtain ⟨resp, mem, per⟩ := o
    unfold handleChooseColor at hout
    dsimp only [] at hout
    repeat' split at hout
    all_goals rw [← hout] at h ⊢
    all_goals dsimp only [] at h
    all_goals cases h
    all_goals exact ⟨rfl, rfl⟩
  · -- makeMove
    intro r pid mv eng now e h
    generalize hout : handleMakeMove r pid mv eng now = o at h ⊢
    obtain ⟨resp, mem, per⟩ := o
    unfold handleMakeMove at hout
    dsimp only [] at hout
    repeat' split at hout
    all_goals rw [← hout] at h ⊢
    all_goals first
      | exact absurd h (flagFallOutcome_not_err _ _ _ _ _ _)
      | exact absurd h (engineMoveOutcome_not_err _ _ _ _ _ _ _)
      | (dsimp only [] at h
         cases h
         first
           | exact ⟨rfl, fun hne1 hne2 => absurd rfl hne1⟩
           | exact ⟨rfl, fun hne1 hne2 => absurd rfl hne2⟩
           | exact ⟨rfl, fun hne1 hne2 => rfl⟩)
  · -- rematch
    intro r pid agree now e h
    generalize hout : handleRematch r pid agree now = o at h ⊢
    obtain ⟨resp, mem, per⟩ := o
    unfold handleRematch at hout
    dsimp only [] at hout
    repeat' split at hout
    all_goals rw [← hout] at h ⊢
    all_goals dsimp only [] at h
    all_goals cases h
    all_goals try exact ⟨rfl, rfl⟩
    -- the `already_voted` leaf: votes were already present, so the
    -- normalization `rematchVotes || {}` is the identity
    all_goals (
      rename ((alookup _ (Option.getD _ _)).isSome = true) => hvoted
      rcases hm : r.rematchVotes with _ | m
      · rw [hm] at hvoted
        simp [alookup] at hvoted
      · simp only [Option.getD_some]
        rw [← hm]
        constructor
        all_goals first
          | rfl
          | trivial)

/-- Witness for `error_responses_no_commit`: a join attempted during
BIDDING errors with `not_in_lobby` and leaves the room untouched. -/
theorem error_responses_no_commit_witness :
    let r : Room := { defaultState 0 with
      phase := .BIDDING, players := [⟨"a", none, 0⟩] }
    (handleJoin r "b" none 5).resp = .err "not_in_lobby" ∧
    ("not_in_lobby" : String) ≠ "room_too_old" ∧
    (handleJoin r "b" none 5).mem = r ∧ (handleJoin r "b" none 5).per = r := by
  intro r
  have h := error_responses_no_commit.1 r "b" none 5 "not_in_lobby"
    (by decide) (by decide)
  exact ⟨by decide, by decide, h.1, h.2⟩

/-! ## C9 -/

theorem refreshFirst_map (pid : String) (now : Int) (b : List QEntry) :
    (refreshFirst pid now b).map QEntry.playerId = b.map QEntry.playerId := by
  induction b with
  | nil => rfl
  | cons e rest ih =>
    by_cases h : e.playerId = pid <;> simp [refreshFirst, h, ih]

theorem filter_map_nodup {α β : Type} (l : List α) (f : α → Bool) (g : α → β)
    (h : (l.map g).Nodup) : ((l.filter f).map g).Nodup :=
  h.sublist (List.Sublist.map g (List.filter_sublist l))

theorem addOrRefresh_nodup (pid : String) (name : Option String) (now : Int)
    (b : List QEntry) (hb : (b.map QEntry.playerId).Nodup) :
    ((addOrRefresh pid name now b).map QEntry.playerId).Nodup := by
  unfold addOrRefresh
  split
  · rw [refreshFirst_map]
    exact hb
  · rename_i h
    have hnotin : pid ∉ b.map QEntry.playerId := by
      simp only [List.any_eq_true, decide_eq_true_eq] at h
      simp only [List.mem_map]
      rintro ⟨e, he, rfl⟩
      exact h ⟨e, he, rfl⟩
    simp only [List.map_append, List.map_cons, List.map_nil]
    rw [List.nodup_append]
    exact ⟨hb, List.nodup_singleton pid,
      by simpa [List.disjoint_singleton] using hnotin⟩

theorem alookup_mem {α : Type} (k : String) (l : List (String × α)) (b : α)
    (h : alookup k l = some b) : (k, b) ∈ l := by
  induction l with
  | nil => simp [alookup] at h
  | cons hd tl ih =>
    obtain ⟨k2, v⟩ := hd
    by_cases h2 : k2 = k
    · subst h2
      simp only [alookup, if_pos rfl] at h
      injection h with h
      subst h
      exact List.mem_cons_self _ _
    · simp only [alookup, if_neg h2] at h
      exact List.mem_cons_of_mem _ (ih h)

theorem setBucket_unique (k : String) (nb : List QEntry) (q : Queues)
    (hq : BucketsUnique q) (hnb : (nb.map QEntry.playerId).Nodup) :
    BucketsUnique (setBucket k nb q) := by
  induction q with
  | nil => intro kb hkb; simp [setBucket] at hkb
  | cons hd tl ih =>
    have hhd : (hd.2.map QEntry.playerId).Nodup := hq hd (List.mem_cons_self hd tl)
    have htl : BucketsUnique tl := fun kb hkb => hq kb (List.mem_cons_of_mem hd hkb)
    unfold setBucket
    split
    · intro kb hkb
      rcases List.mem_cons.mp hkb with rfl | hkb
      · exact hnb
      · exact htl kb hkb
    · intro kb hkb
      rcases List.mem_cons.mp hkb with rfl | hkb
      · exact hhd
      · exact ih htl kb hkb

theorem ensureBucket_unique (k : String) (q : Queues) (hq : BucketsUnique q) :
    BucketsUnique (ensureBucket k q) := by
  unfold ensureBucket
  split
  · exact hq
  · intro kb hkb
    rcases List.mem_append.mp hkb with hkb | hkb
    · exact hq kb hkb
    · rcases List.mem_singleton.mp hkb with rfl
      simp

theorem cleanupStale_unique (now : Int) (q : Queues) (hq : BucketsUnique q) :
    BucketsUnique (cleanupStaleQueues now q) := by
  intro kb hkb
  simp only [cleanupStaleQueues, List.mem_map] at hkb
  obtain ⟨kb0, hkb0, rfl⟩ := hkb
  exact filter_map_nodup _ _ _ (hq kb0 hkb0)

/-- One bucket step shared by `addToQueue` and the `joinAll` loop. -/
theorem bucketStep_unique (pid : String) (name : Option String) (now : Int)
    (timeKey : String) (q : Queues) (hq : BucketsUnique q) :
    BucketsUnique (setBucket timeKey
      (addOrRefresh pid name now ((alookup timeKey (ensureBucket timeKey q)).getD []))
      (ensureBucket timeKey q)) := by
  have hq' := ensureBucket_unique timeKey q hq
  have hb : (((alookup timeKey (ensureBucket timeKey q)).getD []).map
      QEntry.playerId).Nodup := by
    rcases halk : alookup timeKey (ensureBucket timeKey q) with _ | bb
    · simp
    · simpa using hq' (timeKey, bb) (alookup_mem _ _ _ halk)
  exact setBucket_unique _ _ _ hq' (addOrRefresh_nodup _ _ _ _ hb)

theorem queueHeartbeat_unique (pid : String) (now : Int) (q : Queues)
    (hq : BucketsUnique q) : BucketsUnique (queueHeartbeat pid now q) := by
  induction q with
  | nil => intro kb hkb; simp [queueHeartbeat] at hkb
  | cons hd tl ih =>
    have hhd : (hd.2.map QEntry.playerId).Nodup := hq hd (List.mem_cons_self hd tl)
    have htl : BucketsUnique tl := fun kb hkb => hq kb (List.mem_cons_of_mem hd hkb)
    unfold queueHeartbeat
    split
    · intro kb hkb
      rcases List.mem_cons.mp hkb with rfl | hkb
      · rw [refreshFirst_map]
        exact hhd
      · exact htl kb hkb
    · intro kb hkb
      rcases List.mem_cons.mp hkb with rfl | hkb
      · exact hhd
      · exact ih htl kb hkb

theorem removeFromAllQueues_unique (pids : List String) (q : Queues)
    (hq : BucketsUnique q) : BucketsUnique (removeFromAllQueues pids q) := by
  intro kb hkb
  simp only [removeFromAllQueues, List.mem_map] at hkb
  obtain ⟨kb0, hkb0, rfl⟩ := hkb
  exact filter_map_nodup _ _ _ (hq kb0 hkb0)

theorem joinAll_unique (pid : String) (name : Option String) (now : Int)
    (q : Queues) (hq : BucketsUnique q) :
    BucketsUnique (joinAllQueues pid name now q) := by
  unfold joinAllQueues
  apply cleanupStale_unique
  have : ∀ (keys : List String) (q0 : Queues), BucketsUnique q0 →
      BucketsUnique (keys.foldl (fun acc timeKey =>
        setBucket timeKey
          (addOrRefresh pid name now ((alookup timeKey (ensureBucket timeKey acc)).getD []))
          (ensureBucket timeKey acc)) q0) := by
    intro keys
    induction keys with
    | nil => intro q0 hq0; exact hq0
    | cons k rest ih =>
      intro q0 hq0
      exact ih _ (bucketStep_unique pid name now k q0 hq0)
  exact this timeControlKeys q hq

theorem qstep_unique (q : Queues) (op : QOp) (hq : BucketsUnique q) :
    BucketsUnique (qstep q op) := by
  cases op with
  | addToQueue pid name timeKey now =>
    exact cleanupStale_unique _ _ (bucketStep_unique pid name now timeKey q hq)
  | joinAll pid name now => exact joinAll_unique pid name now q hq
  | heartbeat pid now => exact queueHeartbeat_unique pid now q hq
  | removeFromAllQueues pids => exact removeFromAllQueues_unique pids q hq
  | cleanupStale now => exact cleanupStale_unique now q hq

/-- C9: in every reachable queue state, each `playerId` appears at most once
in any single time-control bucket — adding a player already present
refreshes `lastHeartbeat` instead of appending a duplicate. -/
theorem queue_player_unique (q : Queues) (h : QReach q) : BucketsUnique q := by
  induction h with
  | start => intro kb hkb; simp at hkb
  | step op _ ih => exact qstep_unique _ op ih

/-- Witness for `queue_player_unique`: the queue state after the same player
joins the 5-minute bucket twice is reachable and keeps one entry. -/
theorem queue_player_unique_witness :
    QReach (qstep (qstep [] (.addToQueue "a" none "300000" 5)) (.addToQueue "a" none "300000" 6)) ∧
    BucketsUnique (qstep (qstep [] (.addToQueue "a" none "300000" 5)) (.addToQueue "a" none "300000" 6)) ∧
    qstep (qstep [] (.addToQueue "a" none "300000" 5)) (.addToQueue "a" none "300000" 6) =
      [("300000", [⟨"a", none, 5, 6⟩])] := by
  have hr : QReach (qstep (qstep [] (.addToQueue "a" none "300000" 5))
      (.addToQueue "a" none "300000" 6)) :=
    QReach.step _ (QReach.step _ QReach.start)
  refine ⟨hr, queue_player_unique _ hr, by decide⟩

/-! ## C7 -/

theorem ClockInv.mono {r : Room} {t t' : Int} (h : ClockInv r t) (htt : t ≤ t') :
    ClockInv r t' := by
  obtain ⟨h1, h2⟩ := h
  refine ⟨fun hp => ?_, h2⟩
  obtain ⟨c, w, hc, hw, hsum, hlt⟩ := h1 hp
  exact ⟨c, w, hc, hw, hsum, le_trans hlt htt⟩

theorem ClockInv.frame {r r' : Room} {t : Int} (h : ClockInv r t)
    (hp : r'.phase = r.phase) (hc : r'.clocks = r.clocks)
    (hw : r'.winningBidMs = r.winningBidMs) (hm : r'.mainTimeMs = r.mainTimeMs) :
    ClockInv r' t := by
  obtain ⟨h1, h2⟩ := h
  constructor
  · intro hp'
    rw [hp] at hp'
    obtain ⟨c', w, hc', hw', hsum, hlt⟩ := h1 hp'
    exact ⟨c', w, hc ▸ hc', hw ▸ hw', hm ▸ hsum, hlt⟩
  · intro hp'
    rw [hp] at hp'
    exact hw ▸ h2 hp'

theorem ClockInv.notPlaying {r' : Room} {t : Int}
    (hp : r'.phase ≠ .PLAYING) (hcp : r'.phase ≠ .COLOR_PICK) : ClockInv r' t :=
  ⟨fun h => absurd h hp, fun h => absurd h hcp⟩

theorem ClockInv.colorPickSome {r' : Room} {t : Int}
    (hp : r'.phase ≠ .PLAYING) (hw : r'.winningBidMs.isSome) : ClockInv r' t :=
  ⟨fun h => absurd h hp, fun _ => hw⟩

theorem handleJoin_clockinv (r : Room) (pid : String) (name : Option String)
    {t t' : Int} (h : ClockInv r t) (htt : t ≤ t') :
    ClockInv ((handleJoin r pid name t').mem) t' := by
  unfold handleJoin
  dsimp only []
  repeat' split
  all_goals exact ClockInv.frame (h.mono htt) rfl rfl rfl rfl

theorem handleStartBidding_clockinv (r : Room) (pid : String)
    {t t' : Int} (h : ClockInv r t) (htt : t ≤ t') :
    ClockInv ((handleStartBidding r pid t').mem) t' := by
  unfold handleStartBidding stageStartRequest
  dsimp only []
  repeat' split
  all_goals first
    | exact ClockInv.frame (h.mono htt) rfl rfl rfl rfl
    | exact ClockInv.notPlaying (fun hc => Phase.noConfusion hc) (fun hc => Phase.noConfusion hc)

theorem resolveBids_clockinv (r : Room) {t t' : Int}
    (h : ClockInv r t) (htt : t ≤ t') :
    ClockInv (resolveBidsIfNeeded r t') t' := by
  unfold resolveBidsIfNeeded
  dsimp only []
  repeat' split
  all_goals first
    | exact ClockInv.frame (h.mono htt) rfl rfl rfl rfl
    | exact ClockInv.notPlaying (fun hc => Phase.noConfusion hc) (fun hc => Phase.noConfusion hc)
    | exact ClockInv.colorPickSome (fun hc => Phase.noConfusion hc) rfl

theorem handleSubmitBid_clockinv (r : Room) (pid : String) (amount : Option Int)
    {t t' : Int} (h : ClockInv r t) (htt : t ≤ t') :
    ClockInv ((handleSubmitBid r pid amount t').mem) t' := by
  unfold handleSubmitBid
  dsimp only []
  repeat' split
  all_goals first
    | exact ClockInv.frame (h.mono htt) rfl rfl rfl rfl
    | exact resolveBids_clockinv _ h htt
    | exact resolveBids_clockinv _ (ClockInv.frame (h.mono htt) rfl rfl rfl rfl)
        (le_refl t')

theorem resolveChoice_clockinv (r : Room) {t t' : Int}
    (h : ClockInv r t) (htt : t ≤ t') :
    ClockInv (resolveChoiceIfNeeded r t') t' := by
  unfold resolveChoiceIfNeeded
  dsimp only []
  repeat' split
  all_goals first
    | exact ClockInv.frame (h.mono htt) rfl rfl rfl rfl
    | exact ClockInv.notPlaying (fun hc => Phase.noConfusion hc) (fun hc => Phase.noConfusion hc)

theorem deductedClocks_lastTickAt (c : Clocks) (pc : String) (now : Int) :
    (deductedClocks c pc now).lastTickAt = c.lastTickAt := by
  unfold deductedClocks
  dsimp only []
  split <;> rfl

theorem deductedClocks_sum_le (c : Clocks) (pc : String) (now : Int)
    (h0 : c.lastTickAt ≤ now) :
    (deductedClocks c pc now).whiteRemainingMs + (deductedClocks c pc now).blackRemainingMs
      ≤ c.whiteRemainingMs + c.blackRemainingMs := by
  unfold deductedClocks
  dsimp only []
  generalize hE : (now - (if c.lastTickAt != 0 then c.lastTickAt else now)) = E
  have helap : (0:Int) ≤ E := by
    rw [← hE]
    split <;> omega
  split <;> dsimp only [] <;> omega

set_option maxHeartbeats 1000000 in
theorem handleChooseColor_clockinv (r : Room) (pid color : String)
    {t t' : Int} (h : ClockInv r t) (htt : t ≤ t') :
    ClockInv ((handleChooseColor r pid color t').mem) t' := by
  unfold handleChooseColor
  dsimp only []
  repeat' split
  all_goals first
    | exact ClockInv.frame (h.mono htt) rfl rfl rfl rfl
    | (rename (color = "white") => hcw
       rename (color = "black") => hcb
       rw [hcw] at hcb
       exact absurd hcb (by simp))
    | (rename ¬(color = "white") => hcw
       rename ¬(color = "black") => hcb
       rename ¬((_ && _) = true) => hbool
       exact absurd (by simp only [Bool.and_eq_true, decide_eq_true_eq]; exact ⟨hcw, hcb⟩) hbool)
    | (rename ¬(Room.phase _ ≠ Phase.COLOR_PICK) => hph0
       have hph : r.phase = Phase.COLOR_PICK := not_not.mp hph0
       have hs := h.2 hph
       first
         | (rename (Room.winningBidMs _ = none) => hnone
            rw [hnone] at hs
            simp at hs)
         | (rename (Room.winningBidMs _ = some _) => hsome
            refine ⟨fun _ => ⟨_, _, rfl, hsome, ?_, le_refl t'⟩,
                    fun hc => Phase.noConfusion hc⟩
            dsimp only [save]
            omega))

theorem flagFallOutcome_clockinv (rm : Room) (clocks1 : Clocks) (pc : String)
    (eng : ChessEngine) (now : Int) (t : Int) :
    ClockInv (flagFallOutcome rm clocks1 pc eng now).mem t := by
  unfold flagFallOutcome
  dsimp only []
  repeat' split
  all_goals
    exact ClockInv.notPlaying (fun hc => Phase.noConfusion hc) (fun hc => Phase.noConfusion hc)

theorem engineMoveOutcome_clockinv (rm : Room) (clocks1 : Clocks) (pid mv : String)
    (em : EngineMove) (now : Int) (hph : rm.phase = Phase.PLAYING)
    (w : Int) (hw : rm.winningBidMs = some w)
    (hsum : clocks1.whiteRemainingMs + clocks1.blackRemainingMs ≤ w + rm.mainTimeMs) :
    ClockInv (engineMoveOutcome rm clocks1 pid mv em now).mem now := by
  unfold engineMoveOutcome
  dsimp only []
  repeat' split
  all_goals first
    | exact ClockInv.notPlaying (fun hc => Phase.noConfusion hc) (fun hc => Phase.noConfusion hc)
    | exact ⟨fun _ => ⟨_, w, rfl, hw, hsum, le_refl now⟩,
             fun hc => Phase.noConfusion (hph.symm.trans hc)⟩

set_option maxHeartbeats 1000000 in
theorem handleMakeMove_clockinv (r : Room) (pid : String) (mv : Option String)
    (eng : ChessEngine) {t t' : Int} (h : ClockInv r t) (htt : t ≤ t') :
    ClockInv ((handleMakeMove r pid mv eng t').mem) t' := by
  unfold handleMakeMove
  dsimp only []
  repeat' split
  all_goals first
    | exact ClockInv.frame (h.mono htt) rfl rfl rfl rfl
    | exact flagFallOutcome_clockinv _ _ _ _ _ _
    | (rename ¬(Room.phase _ ≠ Phase.PLAYING) => hph0
       rename (Room.clocks _ = some _) => hck
       have hph : r.phase = Phase.PLAYING := not_not.mp hph0
       obtain ⟨c0, w, hc0, hw, hsum, hlt⟩ := h.1 hph
       rw [hck] at hc0
       injection hc0 with hcc
       subst hcc
       first
         | exact engineMoveOutcome_clockinv _ _ _ _ _ _ hph w hw
             (le_trans (deductedClocks_sum_le _ _ _ (le_trans hlt htt)) hsum)
         | (refine ⟨fun _ => ⟨_, w, rfl, hw, ?_, ?_⟩,
                    fun hc => Phase.noConfusion (hph.symm.trans hc)⟩
            · exact le_trans (deductedClocks_sum_le _ _ _ (le_trans hlt htt)) hsum
            · rw [deductedClocks_lastTickAt]
              exact le_trans hlt htt))

theorem handleTimeForfeit_clockinv (r : Room) (pid : String) (eng : ChessEngine)
    {t t' : Int} (h : ClockInv r t) (htt : t ≤ t') :
    ClockInv ((handleTimeForfeit r pid eng t').mem) t' := by
  unfold handleTimeForfeit
  dsimp only []
  repeat' split
  all_goals first
    | exact ClockInv.frame (h.mono htt) rfl rfl rfl rfl
    | exact ClockInv.notPlaying (fun hc => Phase.noConfusion hc) (fun hc => Phase.noConfusion hc)

theorem handleRematch_clockinv (r : Room) (pid : String) (agree : Bool)
    {t t' : Int} (h : ClockInv r t) (htt : t ≤ t') :
    ClockInv ((handleRematch r pid agree t').mem) t' := by
  unfold handleRematch
  dsimp only []
  repeat' split
  all_goals first
    | exact ClockInv.frame (h.mono htt) rfl rfl rfl rfl
    | exact ClockInv.notPlaying (fun hc => Phase.noConfusion hc) (fun hc => Phase.noConfusion hc)

theorem handleLeave_clockinv (r : Room) (pid : String)
    {t t' : Int} (h : ClockInv r t) (htt : t ≤ t') :
    ClockInv ((handleLeave r pid t').mem) t' := by
  unfold handleLeave
  dsimp only []
  repeat' split
  all_goals exact ClockInv.frame (h.mono htt) rfl rfl rfl rfl

theorem handleHeartbeat_clockinv (r : Room) (pid : String)
    {t t' : Int} (h : ClockInv r t) (htt : t ≤ t') :
    ClockInv ((handleHeartbeat r pid t').mem) t' := by
  unfold handleHeartbeat
  repeat' split
  all_goals exact ClockInv.frame (h.mono htt) rfl rfl rfl rfl

theorem initFold_phase (qps : List (String × Option String)) (acc : Room) (now : Int) :
    (qps.foldl (fun acc qp =>
      if (acc.players.find? (·.id = qp.1)).isSome then acc
      else { acc with players := acc.players ++ [⟨qp.1, qp.2, now⟩] }) acc).phase
      = acc.phase := by
  induction qps generalizing acc with
  | nil => rfl
  | cons hd tl ih =>
    rw [List.foldl_cons, ih]
    split <;> rfl

set_option maxHeartbeats 1000000 in
theorem handleInit_clockinv (r : Room) (body : InitBody) (genId : String)
    {t t' : Int} (h : ClockInv r t) (htt : t ≤ t') :
    ClockInv ((handleInit r body genId t').mem) t' := by
  unfold handleInit
  dsimp only []
  repeat' split
  all_goals first
    | exact ClockInv.frame (h.mono htt) rfl rfl rfl rfl
    | exact ClockInv.notPlaying (fun hc => Phase.noConfusion hc) (fun hc => Phase.noConfusion hc)
    | (refine ClockInv.notPlaying ?_ ?_ <;>
       (intro hc
        rw [show ∀ x : Room, (save x t').phase = x.phase from fun _ => rfl] at hc
        rw [initFold_phase] at hc
        exact Phase.noConfusion hc))

theorem getStateDisconnect_clockinv (r : Room) {t t' : Int}
    (h : ClockInv r t) (htt : t ≤ t') :
    ClockInv (getStateDisconnect r t').1 t' := by
  unfold getStateDisconnect
  dsimp only []
  repeat' split
  all_goals first
    | exact ClockInv.frame (h.mono htt) rfl rfl rfl rfl
    | exact ClockInv.notPlaying (fun hc => Phase.noConfusion hc) (fun hc => Phase.noConfusion hc)

theorem getStateStartExpiry_clockinv (r : Room) {t t' : Int}
    (h : ClockInv r t) (htt : t ≤ t') :
    ClockInv (getStateStartExpiry r t').1 t' := by
  unfold getStateStartExpiry
  repeat' split
  all_goals exact ClockInv.frame (h.mono htt) rfl rfl rfl rfl

theorem getStateRemoval_clockinv (r : Room) {t t' : Int}
    (h : ClockInv r t) (htt : t ≤ t') :
    ClockInv (getStateRemoval r t').1 t' := by
  unfold getStateRemoval
  repeat' split
  all_goals exact ClockInv.frame (h.mono htt) rfl rfl rfl rfl

theorem getStateRematchExpiry_clockinv (r : Room) {t t' : Int}
    (h : ClockInv r t) (htt : t ≤ t') :
    ClockInv (getStateRematchExpiry r t').1 t' := by
  unfold getStateRematchExpiry
  dsimp only []
  repeat' split
  all_goals exact ClockInv.frame (h.mono htt) rfl rfl rfl rfl

set_option maxHeartbeats 1000000 in
theorem handleGetState_clockinv (r : Room) {t t' : Int}
    (h : ClockInv r t) (htt : t ≤ t') :
    ClockInv ((handleGetState r t').mem) t' := by
  have h2 : ClockInv (resolveChoiceIfNeeded (resolveBidsIfNeeded r t') t') t' :=
    resolveChoice_clockinv _ (resolveBids_clockinv _ h htt) (le_refl t')
  have h6 : ClockInv (getStateRematchExpiry (getStateRemoval (getStateStartExpiry
      (getStateDisconnect (resolveChoiceIfNeeded (resolveBidsIfNeeded r t') t') t').1
      t').1 t').1 t').1 t' :=
    getStateRematchExpiry_clockinv _
      (getStateRemoval_clockinv _
        (getStateStartExpiry_clockinv _
          (getStateDisconnect_clockinv _ h2 (le_refl t')) (le_refl t'))
        (le_refl t'))
      (le_refl t')
  unfold handleGetState
  dsimp only []
  repeat' split
  all_goals first
    | exact h2
    | exact ClockInv.frame h6 rfl rfl rfl rfl
    | exact h6

theorem step_clockinv (r : Room) (op : Op) {t t' : Int}
    (h : ClockInv r t) (htt : t ≤ t') : ClockInv (step r op t') t' := by
  cases op with
  | init body genId => exact handleInit_clockinv r body genId h htt
  | join pid name => exact handleJoin_clockinv r pid name h htt
  | startBidding pid => exact handleStartBidding_clockinv r pid h htt
  | submitBid pid amount => exact handleSubmitBid_clockinv r pid amount h htt
  | chooseColor pid color => exact handleChooseColor_clockinv r pid color h htt
  | makeMove pid move engine => exact handleMakeMove_clockinv r pid move engine h htt
  | timeForfeit pid engine => exact handleTimeForfeit_clockinv r pid engine h htt
  | rematch pid agree => exact handleRematch_clockinv r pid agree h htt
  | leave pid => exact handleLeave_clockinv r pid h htt
  | heartbeat pid => exact handleHeartbeat_clockinv r pid h htt
  | getState => exact handleGetState_clockinv r h htt

theorem reach_clockinv {r : Room} {t : Int} (h : Reach r t) : ClockInv r t := by
  induction h with
  | start t =>
    exact ClockInv.notPlaying (fun hc => Phase.noConfusion hc) (fun hc => Phase.noConfusion hc)
  | step op hr htt ih => exact step_clockinv _ op ih htt

/-- C7: in every reachable state with phase PLAYING the clocks and the
winning bid are set and `whiteRemainingMs + blackRemainingMs` is bounded by
`winningBidMs + mainTimeMs` — the sum starts at exactly that bound when the
clocks are initialized on color choice and each elapsed-time deduction in
`makeMove` only decreases it. -/
theorem playing_clock_sum (r : Room) (t : Int) (h : Reach r t)
    (hp : r.phase = Phase.PLAYING) :
    ∃ c w, r.clocks = some c ∧ r.winningBidMs = some w ∧
      c.whiteRemainingMs + c.blackRemainingMs ≤ w + r.mainTimeMs := by
  obtain ⟨c, w, hc, hw, hsum, _⟩ := (reach_clockinv h).1 hp
  exact ⟨c, w, hc, hw, hsum⟩

theorem playing_clock_sum_witness :
    let R := step (step (step (step (step (step (step (defaultState 0)
        (Op.join "a" none) 1)
        (Op.join "b" none) 2)
        (Op.startBidding "a") 3)
        (Op.startBidding "b") 4)
        (Op.submitBid "a" (some 1000)) 5)
        (Op.submitBid "b" (some 2000)) 6)
        (Op.chooseColor "a" "white") 7
    ∃ c w, R.clocks = some c ∧ R.winningBidMs = some w ∧
      c.whiteRemainingMs + c.blackRemainingMs ≤ w + R.mainTimeMs :=
  playing_clock_sum _ 7
    (Reach.step _ (Reach.step _ (Reach.step _ (Reach.step _ (Reach.step _
      (Reach.step _ (Reach.step _ (Reach.start 0) (by decide)) (by decide))
      (by decide)) (by decide)) (by decide)) (by decide)) (by decide))
    (by decide)

end Armageddon
